import Mathlib

set_option maxRecDepth 16384

/-!
Shallow embedding of the Tetris board logic found in src/src/lib.rs of the
oxinosg/tetris repository.  Rust `usize`/`isize` become `Nat`/`Int`; a panic
(a failed `assert!`, an out-of-range slice index, or `todo!()`) is modelled
by `none` of an `Option`-valued function; loops become folds over the lists
of their index ranges, with `Option.bind` threading the panics; the random
source becomes an explicit stream of draws.
-/

/-- Cell tag stored in grid cells and in shape patterns (src enum PieceType). -/
inductive PieceType where
  | E | I | J | L | T | O | S | Z | TMP
deriving DecidableEq

/-- Row-major 2D array of cells (src struct Vec2D). -/
structure Vec2D where
  n_rows : Nat
  n_cols : Nat
  data : List PieceType
deriving DecidableEq

/-- The data vector holds exactly n_rows * n_cols cells; every Vec2D the
source ever constructs satisfies this. -/
def Vec2D.wf (v : Vec2D) : Prop := v.data.length = v.n_rows * v.n_cols

instance : DecidablePred Vec2D.wf := fun v =>
  inferInstanceAs (Decidable (v.data.length = v.n_rows * v.n_cols))

/-- src Vec2D::get / Vec2D::get_piece_type: both assert the bounds and read
`data[row * n_cols + col]`; `none` models the assertion or index panic.
(`get` returns the name string of the cell, compared only for equality with
other names, so both source functions are the same function here.) -/
def Vec2D.get (v : Vec2D) (row col : Nat) : Option PieceType :=
  if row < v.n_rows ∧ col < v.n_cols then v.data[row * v.n_cols + col]? else none

/-- src Vec2D::set: asserts the bounds and writes `data[row * n_cols + col]`;
`none` models the assertion or index panic.  The source receives the cell as
a name string and looks it up among the PieceType variants, which succeeds at
every call site, so the cell is passed directly here. -/
def Vec2D.set (v : Vec2D) (row col : Nat) (piece : PieceType) : Option Vec2D :=
  if row < v.n_rows ∧ col < v.n_cols ∧ row * v.n_cols + col < v.data.length then
    some { v with data := v.data.set (row * v.n_cols + col) piece }
  else none

/-- Total cell read used by the specification layer; on a well-formed grid it
agrees with `Vec2D.get` at every in-bounds index. -/
def Vec2D.getCell (v : Vec2D) (row col : Nat) : PieceType :=
  (v.data[row * v.n_cols + col]?).getD PieceType.E

/-- Row `r` of a grid, as the list of its cells (specification layer). -/
def Vec2D.rowOf (v : Vec2D) (r : Nat) : List PieceType :=
  (List.range v.n_cols).map fun c => v.getCell r c

/-- A grid as the list of its rows (specification layer). -/
def Vec2D.rowsOf (v : Vec2D) : List (List PieceType) :=
  (List.range v.n_rows).map fun r => v.rowOf r

/-- src struct Position (isize coordinates). -/
structure Position where
  x : Int
  y : Int
deriving DecidableEq

/-- src struct Player. -/
structure Player where
  piece_type : PieceType
  piece_shape : Vec2D
  position : Position
  collided : Bool
deriving DecidableEq

/-- src struct GameStatus. -/
structure GameStatus where
  level : Nat
  rows_cleared : Nat
  score : Nat
  game_over : Bool
deriving DecidableEq

/-- Board-relevant part of src struct State (the todo-list fields entries,
filter, value and edit_value play no part in the board logic). -/
structure State where
  stage : Vec2D
  player : Player
  game_status : GameStatus
deriving DecidableEq

/-- src enum Controls. -/
inductive Controls where
  | Left | Right | Down | Bottom | Rotate | Pause

/-- Board-relevant messages of src enum Msg (StartPause, StartInterval and
Cancel drive the external interval timer; the restart they trigger is
State::initialize_game below). -/
inductive Msg where
  | Move (c : Controls)
  | Tick

/-- src lazy_static PIECES: the piece catalog, keyed by piece-type name; the
map has no entry for TMP.  The source wraps each shape in struct Piece whose
only field is the shape. -/
def PIECES (t : PieceType) : Option Vec2D :=
  match t with
  | .E => some ⟨1, 1, [.E]⟩
  | .I => some ⟨4, 4, [.E, .I, .E, .E, .E, .I, .E, .E, .E, .I, .E, .E, .E, .I, .E, .E]⟩
  | .J => some ⟨3, 3, [.E, .J, .E, .E, .J, .E, .J, .J, .E]⟩
  | .L => some ⟨3, 3, [.E, .L, .E, .E, .L, .E, .E, .L, .L]⟩
  | .T => some ⟨3, 3, [.E, .T, .E, .T, .T, .T, .E, .E, .E]⟩
  | .O => some ⟨2, 2, [.O, .O, .O, .O]⟩
  | .S => some ⟨3, 3, [.E, .E, .E, .E, .S, .S, .S, .S, .E]⟩
  | .Z => some ⟨3, 3, [.E, .E, .E, .Z, .Z, .E, .E, .Z, .Z]⟩
  | .TMP => none

/-- The catalog shape of a piece type, with a default never used for the
seven playable types nor for E (specification-layer shorthand). -/
def shapeOf (t : PieceType) : Vec2D := (PIECES t).getD ⟨1, 1, [.E]⟩

/-- src const POSITION_INIT. -/
def POSITION_INIT : Position := { x := 4, y := -1 }

/-- src fn initialize_stage. -/
def initialize_stage (rows columns : Nat) : Vec2D :=
  { n_rows := rows
    n_cols := columns
    data := (List.range (rows * columns)).map fun _ => PieceType.E }

/-- src fn initialize_game_status (note the initial level literal). -/
def initialize_game_status : GameStatus :=
  { level := 16, rows_cleared := 0, score := 0, game_over := false }

/-- src fn get_random_piece, applied to one draw of the random source
(rng.gen_range(0, 7) yields a value in [0, 7)). -/
def get_random_piece (num : Fin 7) : PieceType :=
  match num.val with
  | 0 => .I
  | 1 => .J
  | 2 => .L
  | 3 => .T
  | 4 => .O
  | 5 => .S
  | _ => .Z

/-- src fn initialize_player, given the draw of the random source. -/
def initialize_player (draw : Fin 7) : Option Player :=
  let random_piece := get_random_piece draw
  (PIECES random_piece).map fun piece_shape =>
    { piece_type := random_piece
      piece_shape := piece_shape
      position := POSITION_INIT
      collided := false }

/-- src State::initialize_game (run by StartPause when game_over is set). -/
def State.initialize_game (s : State) : State :=
  { s with stage := initialize_stage 21 10, game_status := initialize_game_status }

/-- Rust `as usize` cast of an isize value: wraps modulo 2 ^ 64. -/
def usizeOf (i : Int) : Nat := (i % (2 ^ 64 : Int)).toNat

/-- Rust range `a..b` over isize, as the list of its elements. -/
def irange (a b : Int) : List Int := (List.range (b - a).toNat).map fun (k : Nat) => a + (k : Int)

/-- Cell scan of src Model::is_position_empty: visits the candidate cells in
row-major order; `some false` is the early collision return, `some true` a
completed scan, `none` a panicking grid or shape access. -/
def emptyScan (stage piece : Vec2D) (x y : Int) : List (Int × Int) → Option Bool
  | [] => some true
  | (r, c) :: rest =>
    let row := r + y
    let col := c + x
    if row < 0 ∨ (stage.n_rows : Int) ≤ row ∨ col < 0 ∨ (stage.n_cols : Int) ≤ col then
      emptyScan stage piece x y rest
    else
      match stage.get (usizeOf row) (usizeOf col), piece.get (usizeOf r) (usizeOf c) with
      | some stage_cell, some player_cell =>
        if stage_cell ≠ PieceType.E ∧ player_cell ≠ PieceType.E then some false
        else emptyScan stage piece x y rest
      | _, _ => none

/-- src Model::is_position_empty (the None piece argument defaults to the
active piece's shape, as in the source). -/
def Model.is_position_empty (s : State) (x y : Int) (player_piece : Option Vec2D) :
    Option Bool :=
  let piece := player_piece.getD s.player.piece_shape
  emptyScan s.stage piece x y
    ((irange 0 (piece.n_rows : Int)).flatMap fun r =>
      (irange 0 (piece.n_cols : Int)).map fun c => (r, c))

/-- Cell scan of the three border checks of src Model::is_player_position_valid:
`some true` means a non-Empty cell was found (the check fails), `some false` a
completed scan, `none` a panicking shape access. -/
def pieceScan (piece : Vec2D) : List (Int × Int) → Option Bool
  | [] => some false
  | (r, c) :: rest =>
    match piece.get (usizeOf r) (usizeOf c) with
    | none => none
    | some cell => if cell ≠ PieceType.E then some true else pieceScan piece rest

/-- src Model::is_player_position_valid. -/
def Model.is_player_position_valid (s : State) (x y : Int) (player_piece : Option Vec2D) :
    Option Bool :=
  let piece := player_piece.getD s.player.piece_shape
  let player_rows : Int := piece.n_rows
  let player_cols : Int := piece.n_cols
  let stage_rows : Int := s.stage.n_rows
  let stage_cols : Int := s.stage.n_cols
  let left : Option Bool :=
    if x < 0 then
      let distance : Int := x / (-1)
      pieceScan piece
        ((irange 0 player_rows).flatMap fun r => (irange 0 distance).map fun c => (r, c))
    else some false
  match left with
  | none => none
  | some true => some false
  | some false =>
    let right : Option Bool :=
      if x + player_cols > stage_cols then
        let distance : Int := x + player_cols - stage_cols
        pieceScan piece
          ((irange 0 player_rows).flatMap fun r =>
            (irange (player_cols - distance) player_cols).map fun c => (r, c))
      else some false
    match right with
    | none => none
    | some true => some false
    | some false =>
      let low : Option Bool :=
        if y + player_rows > stage_rows then
          let distance : Int := y + player_rows - stage_rows
          pieceScan piece
            ((irange (player_rows - distance) player_rows).flatMap fun r =>
              (irange 0 player_cols).map fun c => (r, c))
        else some false
      match low with
      | none => none
      | some true => some false
      | some false => some true

/-- Rotated shape data as built by src Model::is_rotate_allowed and src
State::rotate_player_piece: source columns left to right, within each column
source rows bottom to top; the bounds asserts of get_piece_type always pass
here because the indices come from the shape's own ranges, so the total read
getCell is used. -/
def rotatedData (p : Vec2D) : List PieceType :=
  (List.range p.n_cols).flatMap fun n_col =>
    ((List.range p.n_rows).reverse).map fun n_row => p.getCell n_row n_col

/-- The rotated shape: same dimensions, rotated data (as assembled by src
Model::is_rotate_allowed). -/
def rotatedVec (p : Vec2D) : Vec2D :=
  { n_rows := p.n_rows, n_cols := p.n_cols, data := rotatedData p }

/-- src State::rotate_player_piece: replaces the shape data in place. -/
def State.rotate_player_piece (s : State) : State :=
  { s with player := { s.player with piece_shape :=
      { s.player.piece_shape with data := rotatedData s.player.piece_shape } } }

/-- src Model::is_rotate_allowed: always checks at the piece's current
position, with the rotated shape. -/
def Model.is_rotate_allowed (s : State) : Option Bool :=
  let rotated := rotatedVec s.player.piece_shape
  match Model.is_position_empty s s.player.position.x s.player.position.y (some rotated) with
  | none => none
  | some false => some false
  | some true =>
    Model.is_player_position_valid s s.player.position.x s.player.position.y (some rotated)

/-- src Model::is_move_allowed.  Note that the Rotate arm delegates to
is_rotate_allowed and so ignores the optional position argument, and the
Pause arm is todo!() in the source. -/
def Model.is_move_allowed (s : State) (control : Controls) (position : Option Position) :
    Option Bool :=
  let x := (position.getD s.player.position).x
  let y := (position.getD s.player.position).y
  match control with
  | .Left =>
    match Model.is_player_position_valid s (x - 1) y none with
    | none => none
    | some false => some false
    | some true => Model.is_position_empty s (x - 1) y none
  | .Right =>
    match Model.is_player_position_valid s (x + 1) y none with
    | none => none
    | some false => some false
    | some true => Model.is_position_empty s (x + 1) y none
  | .Bottom | .Down =>
    match Model.is_player_position_valid s x (y + 1) none with
    | none => none
    | some false => some false
    | some true => Model.is_position_empty s x (y + 1) none
  | .Rotate => Model.is_rotate_allowed s
  | .Pause => none

/-- src Model::get_completed_rows, over the given stage (the source reads
self.state.stage). -/
def Model.get_completed_rows (stage : Vec2D) : Option (List Nat) :=
  (List.range stage.n_rows).foldlM
    (fun full_rows n_row =>
      ((List.range stage.n_cols).foldlM
        (fun empty_cell_exists n_col =>
          (stage.get n_row n_col).map fun cell =>
            if cell = PieceType.E then true else empty_cell_exists)
        false).map fun empty_cell_exists =>
          if empty_cell_exists = false then full_rows ++ [n_row] else full_rows)
    []

/-- src State::remove_rows: for each cleared row index, column by column,
shift every row above it down one cell (reading from a clone of the stage
taken at the start of that iteration) and blank row 0. -/
def State.remove_rows (stage : Vec2D) (rows : List Nat) : Option Vec2D :=
  let stage_cols := stage.n_cols
  rows.foldlM
    (fun current n_row =>
      let snapshot := current
      (List.range stage_cols).foldlM
        (fun st n_col =>
          (List.range (n_row + 1)).foldlM
            (fun st2 row =>
              (if row = 0 then some PieceType.E else snapshot.get (row - 1) n_col).bind
                fun piece => st2.set row n_col piece)
            st)
        current)
    stage

/-- src State::update_game_state. -/
def State.update_game_state (s : State) (rows_cleared : Nat) : State :=
  if rows_cleared > 0 then
    let score : Nat :=
      match rows_cleared with
      | 1 => 40 * s.game_status.level
      | 2 => 100 * s.game_status.level
      | 3 => 300 * s.game_status.level
      | _ => 1200 * s.game_status.level
    let total := s.game_status.rows_cleared + rows_cleared
    let level : Nat := total / 10 + 1
    { s with game_status :=
        { level := level
          score := s.game_status.score + score
          rows_cleared := total
          game_over := s.game_status.game_over } }
  else s

/-- src State::game_over. -/
def State.game_over (s : State) : State :=
  { s with game_status := { s.game_status with game_over := true } }

/-- Merge loop of src State::add_player_piece_stage: writes the shape's
non-Empty cells into the stage; the skip test keeps the source's inclusive
comparisons row > stage_rows and col > stage_cols. -/
def State.add_player_piece_merge (s : State) : Option Vec2D :=
  let stage_rows : Int := s.stage.n_rows
  let stage_cols : Int := s.stage.n_cols
  let player_rows : Int := s.player.piece_shape.n_rows
  let player_cols : Int := s.player.piece_shape.n_cols
  let x := s.player.position.x
  let y := s.player.position.y
  ((irange 0 player_rows).flatMap fun n_row =>
      (irange 0 player_cols).map fun n_col => (n_row, n_col)).foldlM
    (fun st cell_idx =>
      let row := cell_idx.1 + y
      let col := cell_idx.2 + x
      if row < 0 ∨ row > stage_rows ∨ col < 0 ∨ col > stage_cols then some st
      else
        (s.player.piece_shape.get (usizeOf cell_idx.1) (usizeOf cell_idx.2)).bind fun cell =>
          if cell ≠ PieceType.E then st.set (usizeOf row) (usizeOf col) cell else some st)
    s.stage

/-- Respawn loop of src State::add_player_piece_stage: draw again while the
draw equals the piece just placed; the fuel bounds the source's unbounded
loop, `none` modelling an endless all-equal draw stream. -/
def rollUntilDiff (draws : Nat → Fin 7) (prev : PieceType) : Nat → Nat → Option PieceType
  | 0, _ => none
  | fuel + 1, idx =>
    let piece := get_random_piece (draws idx)
    if piece ≠ prev then some piece else rollUntilDiff draws prev fuel (idx + 1)

/-- src State::add_player_piece_stage: merge the active piece into the stage,
then respawn a fresh piece (of a different type) at (4, 0). -/
def State.add_player_piece_stage (draws : Nat → Fin 7) (fuel : Nat) (s : State) :
    Option State :=
  (State.add_player_piece_merge s).bind fun stage2 =>
    (rollUntilDiff draws s.player.piece_type fuel 0).bind fun random_piece =>
      (PIECES random_piece).map fun piece_shape =>
        { s with
          stage := stage2
          player :=
            { piece_type := random_piece
              piece_shape := piece_shape
              position := { x := 4, y := 0 }
              collided := s.player.collided } }

/-- Shared body of the blocked-downward-move case of the Down and Bottom
handlers in src Model::update: top-out at y ≤ 0, otherwise lock in, score and
clear. -/
def Model.lockOrTopOut (draws : Nat → Fin 7) (fuel : Nat) (s : State) : Option State :=
  if s.player.position.y ≤ 0 then some (State.game_over s)
  else
    (State.add_player_piece_stage draws fuel s).bind fun s1 =>
      (Model.get_completed_rows s1.stage).bind fun rows =>
        if rows.length ≠ 0 then
          let s2 := State.update_game_state s1 rows.length
          (State.remove_rows s2.stage rows).map fun stage2 => { s2 with stage := stage2 }
        else some s1

/-- Hard-drop loop of the Controls::Bottom arm of src Model::update; the loop
fuel bounds the source's unbounded loop. -/
def Model.bottomLoop (draws : Nat → Fin 7) (fuel : Nat) : Nat → State → Option State
  | 0, _ => none
  | loop_fuel + 1, s =>
    match Model.is_move_allowed s Controls.Down none with
    | none => none
    | some true =>
      Model.bottomLoop draws fuel loop_fuel
        { s with player := { s.player with position :=
            { s.player.position with y := s.player.position.y + 1 } } }
    | some false => Model.lockOrTopOut draws fuel s

/-- Msg::Move branch of src Model::update: the whole branch is skipped when
game_over is set; Controls::Pause is todo!() in the source (none here). -/
def Model.updateMove (draws : Nat → Fin 7) (fuel : Nat) (control : Controls) (s : State) :
    Option State :=
  if s.game_status.game_over then some s
  else
    match control with
    | .Left =>
      match Model.is_move_allowed s .Left none with
      | none => none
      | some true => some { s with player := { s.player with position :=
          { s.player.position with x := s.player.position.x - 1 } } }
      | some false => some s
    | .Right =>
      match Model.is_move_allowed s .Right none with
      | none => none
      | some true => some { s with player := { s.player with position :=
          { s.player.position with x := s.player.position.x + 1 } } }
      | some false => some s
    | .Bottom => Model.bottomLoop draws fuel (fuel + 1) s
    | .Down =>
      match Model.is_move_allowed s .Down none with
      | none => none
      | some true => some { s with player := { s.player with position :=
          { s.player.position with y := s.player.position.y + 1 } } }
      | some false => Model.lockOrTopOut draws fuel s
    | .Rotate =>
      match Model.is_move_allowed s .Rotate none with
      | none => none
      | some true => some (State.rotate_player_piece s)
      | some false =>
        let position : Position :=
          { x := s.player.position.x, y := s.player.position.y - 1 }
        match Model.is_move_allowed s .Rotate (some position) with
        | none => none
        | some true => some (State.rotate_player_piece s)
        | some false => some s
    | .Pause => none

/-- src Model::update for the board-relevant messages: Msg::Tick issues
Move(Controls::Down) at the same state. -/
def Model.update (draws : Nat → Fin 7) (fuel : Nat) (msg : Msg) (s : State) : Option State :=
  match msg with
  | .Move control => Model.updateMove draws fuel control s
  | .Tick => Model.updateMove draws fuel Controls.Down s

/-! ### Concrete states used by witnesses and counterexamples -/

/-- A mid-game status used by concrete states. -/
def levelOneStatus : GameStatus :=
  { level := 1, rows_cleared := 0, score := 0, game_over := false }

/-- Fresh 21 x 10 board whose game status is the initialized one. -/
def exampleInitState : State :=
  { stage := initialize_stage 21 10
    player :=
      { piece_type := .T, piece_shape := shapeOf .T, position := ⟨4, 0⟩, collided := false }
    game_status := initialize_game_status }

/-- O piece at (4, 0) on a board whose cells (2,4) and (2,5) are filled, so a
downward move is blocked at the spawn row. -/
def exampleBlockedState : State :=
  { stage := ⟨21, 10, List.replicate 24 .E ++ [.I, .I] ++ List.replicate 184 .E⟩
    player :=
      { piece_type := .O, piece_shape := shapeOf .O, position := ⟨4, 0⟩, collided := false }
    game_status := levelOneStatus }

/-- Vertical I piece at (4, 5) on a board whose cell (6, 7) is filled: the
rotated (horizontal) shape collides at y = 5 but is legal at y = 4. -/
def exampleRotateState : State :=
  { stage := ⟨21, 10, List.replicate 67 .E ++ [.Z] ++ List.replicate 142 .E⟩
    player :=
      { piece_type := .I, piece_shape := shapeOf .I, position := ⟨4, 5⟩, collided := false }
    game_status := levelOneStatus }

/-- S piece on a fresh board. -/
def exampleSState : State :=
  { stage := initialize_stage 21 10
    player :=
      { piece_type := .S, piece_shape := shapeOf .S, position := ⟨0, 0⟩, collided := false }
    game_status := levelOneStatus }

/-- A game-over state. -/
def exampleOverState : State :=
  { stage := initialize_stage 21 10
    player :=
      { piece_type := .T, piece_shape := shapeOf .T, position := ⟨4, 3⟩, collided := false }
    game_status := { level := 2, rows_cleared := 12, score := 100, game_over := true } }

/-- 21 x 10 grid whose rows 2 and 5 are completely filled with I cells and
whose other rows each keep at least one Empty cell; marker cells at (0,0)
and (4,4) make the downward shift observable. -/
def exampleClearGrid : Vec2D :=
  ⟨21, 10,
    [.Z] ++ List.replicate 9 .E ++ List.replicate 10 .E ++ List.replicate 10 .I ++
      List.replicate 10 .E ++ (List.replicate 4 .E ++ [.T] ++ List.replicate 5 .E) ++
      List.replicate 10 .I ++ List.replicate 150 .E⟩

/-- The grid expected after clearing rows 2 and 5 of exampleClearGrid: two
Empty rows on top, the old rows 0 and 4 shifted down by 2 (markers now at
(2,0) and (5,4)), everything else Empty. -/
def exampleClearedGrid : Vec2D :=
  ⟨21, 10,
    List.replicate 20 .E ++ [.Z] ++ List.replicate 9 .E ++ List.replicate 20 .E ++
      List.replicate 4 .E ++ [.T] ++ List.replicate 5 .E ++ List.replicate 150 .E⟩

/-! ### C3 -/

/-- C3: code bug — initialize_game_status sets level = 16 while rows_cleared = 0,
so a freshly initialized or restarted game violates level = rows_cleared / 10 + 1
(which gives 1), and the first update_game_state call then drops the level from
16 to 1, so the level is also not monotone within one game. -/
theorem C3_initial_level_breaks_invariant :
    initialize_game_status.level = 16 ∧
    initialize_game_status.rows_cleared = 0 ∧
    initialize_game_status.level ≠ initialize_game_status.rows_cleared / 10 + 1 ∧
    (State.initialize_game exampleBlockedState).game_status.level = 16 ∧
    (State.update_game_state (State.initialize_game exampleBlockedState) 1).game_status.level
      = 1 ∧
    (State.update_game_state (State.initialize_game exampleBlockedState) 1).game_status.level
      < (State.initialize_game exampleBlockedState).game_status.level := by
  refine ⟨rfl, rfl, by decide, rfl, rfl, by decide⟩

/-! ### C6 -/

/-- C6: one lock-in step that clears n ≥ 1 rows adds the table value
(40, 100, 300 for n = 1, 2, 3 and 1200 for n ≥ 4) times the pre-update level
to the score, and adds n to the cumulative rows_cleared. -/
theorem C6_score_table (s : State) (n : Nat) (h : 1 ≤ n) :
    (State.update_game_state s n).game_status.rows_cleared
      = s.game_status.rows_cleared + n ∧
    (State.update_game_state s n).game_status.score
      = s.game_status.score +
        (if n = 1 then 40 else if n = 2 then 100 else if n = 3 then 300 else 1200) *
          s.game_status.level := by
  match n, h with
  | 1, _ => exact ⟨rfl, rfl⟩
  | 2, _ => exact ⟨rfl, rfl⟩
  | 3, _ => exact ⟨rfl, rfl⟩
  | m + 4, _ => exact ⟨rfl, rfl⟩

/-- Witness for C6 at a concrete input. -/
theorem C6_score_table_witness :
    1 ≤ 2 ∧
    ((State.update_game_state exampleInitState 2).game_status.rows_cleared
        = exampleInitState.game_status.rows_cleared + 2 ∧
      (State.update_game_state exampleInitState 2).game_status.score
        = exampleInitState.game_status.score +
          (if 2 = 1 then 40 else if 2 = 2 then 100 else if 2 = 3 then 300 else 1200) *
            exampleInitState.game_status.level) :=
  ⟨by decide, C6_score_table exampleInitState 2 (by decide)⟩

/-! ### C9 -/

/-- C9: any movement command processed while game_over is set leaves the whole
state unchanged and raises no error. -/
theorem C9_game_over_is_noop (draws : Nat → Fin 7) (fuel : Nat) (c : Controls) (s : State)
    (h : s.game_status.game_over = true) :
    Model.update draws fuel (Msg.Move c) s = some s := by
  cases c <;> simp [Model.update, Model.updateMove, h]

/-- Witness for C9 at a concrete input. -/
theorem C9_game_over_is_noop_witness :
    exampleOverState.game_status.game_over = true ∧
    Model.update (fun _ => 0) 1 (Msg.Move Controls.Left) exampleOverState
      = some exampleOverState :=
  ⟨rfl, C9_game_over_is_noop (fun _ => 0) 1 Controls.Left exampleOverState rfl⟩

/-! ### C5 -/

/-- C5: when the piece sits at y = 0 and the downward move is blocked,
Move(Down) and Tick both only set game_over: the stage is not merged into and
the player (piece type, shape, position) is unchanged. -/
theorem C5_top_out_no_merge (draws : Nat → Fin 7) (fuel : Nat) (s : State)
    (hgo : s.game_status.game_over = false)
    (hy : s.player.position.y = 0)
    (hblock : Model.is_move_allowed s Controls.Down none = some false) :
    Model.update draws fuel (Msg.Move Controls.Down) s = some (State.game_over s) ∧
    Model.update draws fuel Msg.Tick s = some (State.game_over s) ∧
    (State.game_over s).game_status.game_over = true ∧
    (State.game_over s).stage = s.stage ∧
    (State.game_over s).player = s.player := by
  have h1 : Model.updateMove draws fuel Controls.Down s = some (State.game_over s) := by
    simp [Model.updateMove, hgo, hblock, Model.lockOrTopOut, hy]
  exact ⟨h1, h1, rfl, rfl, rfl⟩

/-- Witness for C5 at a concrete input. -/
theorem C5_top_out_no_merge_witness :
    (exampleBlockedState.game_status.game_over = false ∧
      exampleBlockedState.player.position.y = 0 ∧
      Model.is_move_allowed exampleBlockedState Controls.Down none = some false) ∧
    (Model.update (fun _ => 0) 1 (Msg.Move Controls.Down) exampleBlockedState
        = some (State.game_over exampleBlockedState) ∧
      Model.update (fun _ => 0) 1 Msg.Tick exampleBlockedState
        = some (State.game_over exampleBlockedState) ∧
      (State.game_over exampleBlockedState).game_status.game_over = true ∧
      (State.game_over exampleBlockedState).stage = exampleBlockedState.stage ∧
      (State.game_over exampleBlockedState).player = exampleBlockedState.player) :=
  ⟨⟨rfl, rfl, by decide⟩,
    C5_top_out_no_merge (fun _ => 0) 1 exampleBlockedState rfl rfl (by decide)⟩

/-! ### C7 -/

/-- The respawn loop never returns the previous piece type. -/
theorem rollUntilDiff_ne (draws : Nat → Fin 7) (prev : PieceType) (fuel idx : Nat)
    (p : PieceType) (h : rollUntilDiff draws prev fuel idx = some p) : p ≠ prev := by
  induction fuel generalizing idx with
  | zero => simp [rollUntilDiff] at h
  | succ n ih =>
    simp only [rollUntilDiff] at h
    split at h
    · rename_i hc
      injection h with h2
      exact h2 ▸ hc
    · exact ih (idx + 1) h

/-- C7: whenever the lock-in respawn terminates, the new active piece's type
differs from the type just locked in, and the piece is placed at (4, 0). -/
theorem C7_spawn_nonrepeat (draws : Nat → Fin 7) (fuel : Nat) (s s2 : State)
    (h : State.add_player_piece_stage draws fuel s = some s2) :
    s2.player.piece_type ≠ s.player.piece_type ∧
    s2.player.position.x = 4 ∧ s2.player.position.y = 0 := by
  unfold State.add_player_piece_stage at h
  cases hm : State.add_player_piece_merge s with
  | none => rw [hm] at h; simp at h
  | some stage2 =>
    rw [hm, Option.some_bind] at h
    cases hr : rollUntilDiff draws s.player.piece_type fuel 0 with
    | none => rw [hr] at h; simp at h
    | some p =>
      rw [hr, Option.some_bind] at h
      cases hp : PIECES p with
      | none => rw [hp] at h; simp at h
      | some shape =>
        rw [hp] at h
        simp only [Option.map_some', Option.some.injEq] at h
        subst h
        exact ⟨rollUntilDiff_ne draws s.player.piece_type fuel 0 p hr, rfl, rfl⟩

/-- Witness for C7 at a concrete input. -/
theorem C7_spawn_nonrepeat_witness :
    ∃ s2, State.add_player_piece_stage (fun _ => 3) 3 exampleBlockedState = some s2 ∧
      (s2.player.piece_type ≠ exampleBlockedState.player.piece_type ∧
        s2.player.position.x = 4 ∧ s2.player.position.y = 0) := by
  cases h : State.add_player_piece_stage (fun _ => 3) 3 exampleBlockedState with
  | none => exact absurd h (by decide)
  | some s2 =>
    exact ⟨s2, rfl, C7_spawn_nonrepeat (fun _ => 3) 3 exampleBlockedState s2 h⟩

/-! ### C2 -/

/-- C2: code bug — in exampleRotateState the rotated shape is illegal at the
current position (4, 5) (first conjunct) but both legality predicates accept
it at (4, 4) (second and third conjunct), yet the Rotate command leaves the
whole state unchanged: the retry passes position (x, y - 1) into
is_move_allowed, whose Rotate arm ignores the supplied position, and
rotate_player_piece never moves the piece. -/
theorem C2_rotate_kick_is_dead_code :
    Model.is_rotate_allowed exampleRotateState = some false ∧
    Model.is_position_empty exampleRotateState 4 4
      (some (rotatedVec (shapeOf PieceType.I))) = some true ∧
    Model.is_player_position_valid exampleRotateState 4 4
      (some (rotatedVec (shapeOf PieceType.I))) = some true ∧
    exampleRotateState.player.position.y = 5 ∧
    Model.update (fun _ => 0) 1 (Msg.Move Controls.Rotate) exampleRotateState
      = some exampleRotateState := by
  refine ⟨by decide, by decide, by decide, rfl, by decide⟩

/-! ### C8 -/

/-- Shape of the element at flat index q * n + s of the rotation data: the
data is a concatenation of blocks, one per source column, each block listing
that column bottom to top. -/
theorem rotBlocks (n : Nat) (g : Nat → Nat → PieceType) (m : Nat) :
    (((List.range m).flatMap fun c => ((List.range n).reverse).map fun r => g r c).length
        = m * n) ∧
    ∀ q s, q < m → s < n →
      ((List.range m).flatMap fun c =>
        ((List.range n).reverse).map fun r => g r c)[q * n + s]? = some (g (n - 1 - s) q) := by
  induction m with
  | zero =>
    refine ⟨by simp, ?_⟩
    intro q s hq _
    exact absurd hq (Nat.not_lt_zero q)
  | succ m ih =>
    have hlen := ih.1
    constructor
    · rw [List.range_succ, List.flatMap_append]
      simp only [List.length_append, hlen, List.flatMap_cons, List.flatMap_nil,
        List.append_nil, List.length_map, List.length_reverse, List.length_range]
      rw [Nat.succ_mul]
    · intro q s hq hs
      rw [List.range_succ, List.flatMap_append]
      rcases Nat.lt_or_ge q m with h | h
      · have hlt : q * n + s < m * n := by
          have h1 : (q + 1) * n ≤ m * n := Nat.mul_le_mul_right n h
          have h2 : q * n + s < (q + 1) * n := by rw [Nat.succ_mul]; omega
          exact Nat.lt_of_lt_of_le h2 h1
        rw [List.getElem?_append_left (by rw [hlen]; exact hlt)]
        exact ih.2 q s h hs
      · have hqm : q = m := by omega
        subst hqm
        rw [List.getElem?_append_right (by rw [hlen]; exact Nat.le_add_right _ s)]
        rw [hlen]
        have hidx : q * n + s - q * n = s := by omega
        rw [hidx]
        simp only [List.flatMap_cons, List.flatMap_nil, List.append_nil, List.getElem?_map]
        rw [List.getElem?_reverse (by simpa using hs)]
        simp only [List.length_range, List.getElem?_range (show n - 1 - s < n by omega),
          Option.map_some']

/-- Length of the rotated data. -/
theorem rotatedData_length (p : Vec2D) : (rotatedData p).length = p.n_cols * p.n_rows :=
  (rotBlocks p.n_rows (fun a b => p.getCell a b) p.n_cols).1

/-- In-bounds flat reads of a well-formed grid always hit the data. -/
theorem wf_getElem_eq (v : Vec2D) (hwf : v.wf) {r c : Nat}
    (hr : r < v.n_rows) (hc : c < v.n_cols) :
    v.data[r * v.n_cols + c]? = some (v.getCell r c) := by
  have hidx : r * v.n_cols + c < v.data.length := by
    rw [hwf]
    have h1 : (r + 1) * v.n_cols ≤ v.n_rows * v.n_cols := Nat.mul_le_mul_right _ hr
    have h2 : r * v.n_cols + c < (r + 1) * v.n_cols := by rw [Nat.succ_mul]; omega
    exact Nat.lt_of_lt_of_le h2 h1
  rw [Vec2D.getCell, List.getElem?_eq_getElem hidx]
  rfl

/-- Flat reads of a well-formed grid, by flat index. -/
theorem data_getElem_eq (v : Vec2D) (hwf : v.wf) (W R : Nat)
    (hW : v.n_cols = W) (hR : v.n_rows = R) (i : Nat) (hi : i < R * W) :
    v.data[i]? = some (v.getCell (i / W) (i % W)) := by
  subst hW
  subst hR
  have hW0 : 0 < v.n_cols := by
    rcases Nat.eq_zero_or_pos v.n_cols with h0 | h0
    · rw [h0, Nat.mul_zero] at hi
      exact absurd hi (Nat.not_lt_zero i)
    · exact h0
  have hr : i / v.n_cols < v.n_rows := Nat.div_lt_of_lt_mul (by rw [Nat.mul_comm]; exact hi)
  have hc : i % v.n_cols < v.n_cols := Nat.mod_lt _ hW0
  have h := wf_getElem_eq v hwf hr hc
  rw [show i / v.n_cols * v.n_cols + i % v.n_cols = i by
    rw [Nat.mul_comm]; exact Nat.div_add_mod i v.n_cols] at h
  exact h

/-- One rotation reads cell (n - 1 - c, r) of a square source shape. -/
theorem getCell_rotatedVec (p : Vec2D) (hsq : p.n_rows = p.n_cols) {r c : Nat}
    (hr : r < p.n_rows) (hc : c < p.n_rows) :
    (rotatedVec p).getCell r c = p.getCell (p.n_rows - 1 - c) r := by
  have h := (rotBlocks p.n_rows (fun a b => p.getCell a b) p.n_cols).2 r c (hsq ▸ hr) hc
  unfold rotatedVec Vec2D.getCell rotatedData
  simp only
  rw [show r * p.n_cols + c = r * p.n_rows + c by rw [hsq], h]
  rfl

/-- Dimensions and well-formedness survive rotation. -/
theorem rotatedVec_wf (q : Vec2D) : (rotatedVec q).wf := by
  show (rotatedData q).length = q.n_rows * q.n_cols
  rw [rotatedData_length]
  exact Nat.mul_comm _ _

/-- Plain extensionality for Vec2D. -/
theorem Vec2D.ext_eq (v w : Vec2D) (h1 : v.n_rows = w.n_rows) (h2 : v.n_cols = w.n_cols)
    (h3 : v.data = w.data) : v = w := by
  cases v
  cases w
  cases h1
  cases h2
  cases h3
  rfl

/-- C8: four successive 90-degree rotations of any square well-formed shape
(as all catalog shapes are) give back a shape with identical cell contents. -/
theorem C8_rotate_four_times_identity (p : Vec2D)
    (hsq : p.n_rows = p.n_cols) (hwf : p.wf) :
    rotatedVec (rotatedVec (rotatedVec (rotatedVec p))) = p := by
  have hwf1 : (rotatedVec p).wf := rotatedVec_wf p
  have hwf2 : (rotatedVec (rotatedVec p)).wf := rotatedVec_wf _
  have hwf3 : (rotatedVec (rotatedVec (rotatedVec p))).wf := rotatedVec_wf _
  have hwf4 : (rotatedVec (rotatedVec (rotatedVec (rotatedVec p)))).wf := rotatedVec_wf _
  have hcell : ∀ r c, r < p.n_rows → c < p.n_rows →
      (rotatedVec (rotatedVec (rotatedVec (rotatedVec p)))).getCell r c = p.getCell r c := by
    intro r c hr hc
    have h1 : p.n_rows - 1 - c < p.n_rows := by omega
    have h2 : p.n_rows - 1 - r < p.n_rows := by omega
    have h3 : p.n_rows - 1 - (p.n_rows - 1 - c) < p.n_rows := by omega
    calc (rotatedVec (rotatedVec (rotatedVec (rotatedVec p)))).getCell r c
        = (rotatedVec (rotatedVec (rotatedVec p))).getCell (p.n_rows - 1 - c) r :=
          getCell_rotatedVec (rotatedVec (rotatedVec (rotatedVec p))) hsq hr hc
      _ = (rotatedVec (rotatedVec p)).getCell (p.n_rows - 1 - r) (p.n_rows - 1 - c) :=
          getCell_rotatedVec (rotatedVec (rotatedVec p)) hsq h1 hr
      _ = (rotatedVec p).getCell (p.n_rows - 1 - (p.n_rows - 1 - c)) (p.n_rows - 1 - r) :=
          getCell_rotatedVec (rotatedVec p) hsq h2 h1
      _ = (rotatedVec p).getCell c (p.n_rows - 1 - r) := by
          rw [show p.n_rows - 1 - (p.n_rows - 1 - c) = c by omega]
      _ = p.getCell (p.n_rows - 1 - (p.n_rows - 1 - r)) c :=
          getCell_rotatedVec p hsq hc h2
      _ = p.getCell r c := by rw [show p.n_rows - 1 - (p.n_rows - 1 - r) = r by omega]
  refine Vec2D.ext_eq _ _ rfl rfl ?_
  apply List.ext_getElem?
  intro i
  rcases Nat.lt_or_ge i (p.n_rows * p.n_cols) with hi | hi
  · have left := data_getElem_eq (rotatedVec (rotatedVec (rotatedVec (rotatedVec p)))) hwf4
      p.n_cols p.n_rows rfl rfl i hi
    have right := data_getElem_eq p hwf p.n_cols p.n_rows rfl rfl i hi
    rw [left, right]
    have hC : 0 < p.n_cols := by
      rcases Nat.eq_zero_or_pos p.n_cols with h0 | h0
      · rw [h0, Nat.mul_zero] at hi
        exact absurd hi (Nat.not_lt_zero i)
      · exact h0
    have hr : i / p.n_cols < p.n_rows :=
      Nat.div_lt_of_lt_mul (by rw [Nat.mul_comm]; exact hi)
    have hc : i % p.n_cols < p.n_rows := by
      rw [hsq]
      exact Nat.mod_lt _ hC
    rw [hcell _ _ hr hc]
  · have l4 : (rotatedVec (rotatedVec (rotatedVec (rotatedVec p)))).data.length
        = p.n_rows * p.n_cols := hwf4
    rw [List.getElem?_eq_none (by rw [l4]; exact hi),
      List.getElem?_eq_none (by rw [hwf]; exact hi)]

/-- Witness for C8 at a concrete input. -/
theorem C8_rotate_four_times_identity_witness :
    ((shapeOf PieceType.T).n_rows = (shapeOf PieceType.T).n_cols ∧
      (shapeOf PieceType.T).wf) ∧
    rotatedVec (rotatedVec (rotatedVec (rotatedVec (shapeOf PieceType.T))))
      = shapeOf PieceType.T :=
  ⟨⟨by decide, by decide⟩, C8_rotate_four_times_identity (shapeOf PieceType.T)
    (by decide) (by decide)⟩

/-! ### Bounds machinery shared by C4 and C10 -/

/-- The usize cast is the identity on small non-negative values. -/
theorem usizeOf_natCast (k : Nat) (h : (k : Int) < 2 ^ 64) : usizeOf (k : Int) = k := by
  unfold usizeOf
  omega

/-- A successful bounds-checked read determines the total read. -/
theorem get_eq_some_getCell (v : Vec2D) {r c : Nat} {cell : PieceType}
    (h : v.get r c = some cell) : v.getCell r c = cell := by
  unfold Vec2D.get at h
  split at h
  · rw [Vec2D.getCell, h]
    rfl
  · exact absurd h (by simp)

/-- Membership in a Rust-style integer range. -/
theorem mem_irange {a b i : Int} : i ∈ irange a b ↔ a ≤ i ∧ i < b := by
  constructor
  · intro h
    unfold irange at h
    obtain ⟨k, hk, hek⟩ := List.mem_map.mp h
    rw [List.mem_range] at hk
    omega
  · intro h
    unfold irange
    refine List.mem_map.mpr ⟨(i - a).toNat, ?_, ?_⟩
    · rw [List.mem_range]
      omega
    · omega

/-- Membership in a rectangle of cell coordinates. -/
theorem mem_rect {la lb ua ub : Int} {p : Int × Int} :
    p ∈ ((irange la lb).flatMap fun r => (irange ua ub).map fun c => (r, c)) ↔
      la ≤ p.1 ∧ p.1 < lb ∧ ua ≤ p.2 ∧ p.2 < ub := by
  obtain ⟨pr, pc⟩ := p
  simp only [List.mem_flatMap, List.mem_map, mem_irange, Prod.mk.injEq]
  constructor
  · rintro ⟨r, hr, c, hc, rfl, rfl⟩
    exact ⟨hr.1, hr.2, hc.1, hc.2⟩
  · rintro ⟨h1, h2, h3, h4⟩
    exact ⟨pr, ⟨h1, h2⟩, pc, ⟨h3, h4⟩, rfl, rfl⟩

/-- A border scan that completes saw only Empty cells. -/
theorem pieceScan_false_mem (piece : Vec2D) (l : List (Int × Int))
    (h : pieceScan piece l = some false) :
    ∀ p ∈ l, piece.get (usizeOf p.1) (usizeOf p.2) = some PieceType.E := by
  induction l with
  | nil => intro p hp; exact absurd hp (List.not_mem_nil p)
  | cons hd tl ih =>
    obtain ⟨r, c⟩ := hd
    intro p hp
    rw [pieceScan] at h
    cases hget : piece.get (usizeOf r) (usizeOf c) with
    | none => rw [hget] at h; exact absurd h (by simp)
    | some cell =>
      rw [hget] at h
      simp only [] at h
      by_cases hcell : cell = PieceType.E
      · subst hcell
        rw [if_neg (by simp)] at h
        rcases List.mem_cons.mp hp with rfl | hptl
        · exact hget
        · exact ih h p hptl
      · rw [if_pos hcell] at h
        exact absurd h (by simp)

/-- A border scan over in-range coordinates of a well-formed shape computes
whether some scanned cell is non-Empty. -/
theorem pieceScan_eq_any (piece : Vec2D) (hwf : piece.wf)
    (hrows : (piece.n_rows : Int) < 2 ^ 64) (hcols : (piece.n_cols : Int) < 2 ^ 64)
    (l : List (Int × Int))
    (hmem : ∀ p ∈ l, 0 ≤ p.1 ∧ p.1 < (piece.n_rows : Int) ∧
      0 ≤ p.2 ∧ p.2 < (piece.n_cols : Int)) :
    pieceScan piece l
      = some (l.any fun p =>
          decide (piece.getCell (usizeOf p.1) (usizeOf p.2) ≠ PieceType.E)) := by
  induction l with
  | nil => rfl
  | cons hd tl ih =>
    obtain ⟨r, c⟩ := hd
    obtain ⟨h1, h2, h3, h4⟩ := hmem (r, c) (List.mem_cons_self _ _)
    have hrn : usizeOf r < piece.n_rows := by unfold usizeOf; omega
    have hcn : usizeOf c < piece.n_cols := by unfold usizeOf; omega
    have hget : piece.get (usizeOf r) (usizeOf c)
        = some (piece.getCell (usizeOf r) (usizeOf c)) := by
      unfold Vec2D.get
      rw [if_pos ⟨hrn, hcn⟩]
      exact wf_getElem_eq piece hwf hrn hcn
    rw [pieceScan, hget]
    simp only [List.any_cons]
    by_cases hcell : piece.getCell (usizeOf r) (usizeOf c) = PieceType.E
    · rw [if_neg (by simp [hcell])]
      rw [ih fun p hp => hmem p (List.mem_cons_of_mem _ hp)]
      simp [hcell]
    · rw [if_pos hcell]
      simp [hcell]

/-- When the bounds predicate returns true, each of its three border checks
either was not triggered or completed its scan without finding a cell. -/
theorem valid_true_scans (s : State) (x y : Int) (pp : Option Vec2D)
    (h : Model.is_player_position_valid s x y pp = some true) :
    (x < 0 → pieceScan (pp.getD s.player.piece_shape)
      ((irange 0 ((pp.getD s.player.piece_shape).n_rows : Int)).flatMap fun r =>
        (irange 0 (x / (-1))).map fun c => (r, c)) = some false) ∧
    (x + ((pp.getD s.player.piece_shape).n_cols : Int) > (s.stage.n_cols : Int) →
      pieceScan (pp.getD s.player.piece_shape)
        ((irange 0 ((pp.getD s.player.piece_shape).n_rows : Int)).flatMap fun r =>
          (irange (((pp.getD s.player.piece_shape).n_cols : Int) -
              (x + ((pp.getD s.player.piece_shape).n_cols : Int) - (s.stage.n_cols : Int)))
            ((pp.getD s.player.piece_shape).n_cols : Int)).map fun c => (r, c))
        = some false) ∧
    (y + ((pp.getD s.player.piece_shape).n_rows : Int) > (s.stage.n_rows : Int) →
      pieceScan (pp.getD s.player.piece_shape)
        ((irange (((pp.getD s.player.piece_shape).n_rows : Int) -
            (y + ((pp.getD s.player.piece_shape).n_rows : Int) - (s.stage.n_rows : Int)))
          ((pp.getD s.player.piece_shape).n_rows : Int)).flatMap fun r =>
          (irange 0 ((pp.getD s.player.piece_shape).n_cols : Int)).map fun c => (r, c))
        = some false) := by
  unfold Model.is_player_position_valid at h
  simp only [] at h
  split at h
  · exact absurd h (by simp)
  · exact absurd h (by simp)
  · rename_i heqL
    split at h
    · exact absurd h (by simp)
    · exact absurd h (by simp)
    · rename_i heqR
      split at h
      · exact absurd h (by simp)
      · exact absurd h (by simp)
      · rename_i heqW
        refine ⟨fun hc => ?_, fun hc => ?_, fun hc => ?_⟩
        · rw [if_pos hc] at heqL
          exact heqL
        · rw [if_pos hc] at heqR
          exact heqR
        · rw [if_pos hc] at heqW
          exact heqW

/-- Cells of the shape that are non-Empty stay strictly left of the right
stage border and strictly above the bottom stage border whenever the bounds
predicate accepted the position. -/
theorem valid_true_cell_bounds (s : State) (x y : Int) (pp : Option Vec2D)
    (h : Model.is_player_position_valid s x y pp = some true)
    (hrows : ((pp.getD s.player.piece_shape).n_rows : Int) < 2 ^ 64)
    (hcols : ((pp.getD s.player.piece_shape).n_cols : Int) < 2 ^ 64) :
    ∀ r c : Nat, r < (pp.getD s.player.piece_shape).n_rows →
      c < (pp.getD s.player.piece_shape).n_cols →
      (pp.getD s.player.piece_shape).getCell r c ≠ PieceType.E →
      x + c < (s.stage.n_cols : Int) ∧ y + r < (s.stage.n_rows : Int) := by
  intro r c hr hc hne
  obtain ⟨hL, hR, hW⟩ := valid_true_scans s x y pp h
  have hrI : ((r : Int)) < ((pp.getD s.player.piece_shape).n_rows : Int) := by
    exact_mod_cast hr
  have hcI : ((c : Int)) < ((pp.getD s.player.piece_shape).n_cols : Int) := by
    exact_mod_cast hc
  constructor
  · by_cases hcond :
        x + ((pp.getD s.player.piece_shape).n_cols : Int) > (s.stage.n_cols : Int)
    · by_contra hge
      push_neg at hge
      have hmem : ((r : Int), (c : Int)) ∈
          ((irange 0 ((pp.getD s.player.piece_shape).n_rows : Int)).flatMap fun a =>
            (irange (((pp.getD s.player.piece_shape).n_cols : Int) -
                (x + ((pp.getD s.player.piece_shape).n_cols : Int) - (s.stage.n_cols : Int)))
              ((pp.getD s.player.piece_shape).n_cols : Int)).map fun b => (a, b)) :=
        mem_rect.mpr ⟨by omega, hrI, by omega, hcI⟩
      have hg := pieceScan_false_mem _ _ (hR hcond) _ hmem
      rw [usizeOf_natCast r (by omega), usizeOf_natCast c (by omega)] at hg
      exact hne (get_eq_some_getCell _ hg)
    · omega
  · by_cases hcond :
        y + ((pp.getD s.player.piece_shape).n_rows : Int) > (s.stage.n_rows : Int)
    · by_contra hge
      push_neg at hge
      have hmem : ((r : Int), (c : Int)) ∈
          ((irange (((pp.getD s.player.piece_shape).n_rows : Int) -
              (y + ((pp.getD s.player.piece_shape).n_rows : Int) - (s.stage.n_rows : Int)))
            ((pp.getD s.player.piece_shape).n_rows : Int)).flatMap fun a =>
            (irange 0 ((pp.getD s.player.piece_shape).n_cols : Int)).map fun b => (a, b)) :=
        mem_rect.mpr ⟨by omega, hrI, by omega, hcI⟩
      have hg := pieceScan_false_mem _ _ (hW hcond) _ hmem
      rw [usizeOf_natCast r (by omega), usizeOf_natCast c (by omega)] at hg
      exact hne (get_eq_some_getCell _ hg)
    · omega

/-- Flat index bound for in-bounds cells. -/
theorem flat_lt {r c R C : Nat} (hr : r < R) (hc : c < C) : r * C + c < R * C := by
  have h1 : (r + 1) * C ≤ R * C := Nat.mul_le_mul_right _ hr
  have h2 : r * C + c < (r + 1) * C := by rw [Nat.succ_mul]; omega
  exact Nat.lt_of_lt_of_le h2 h1

/-- The merge loop of add_player_piece_stage never fails on a list of
in-range shape coordinates when every non-Empty cell lands inside the stage. -/
theorem merge_fold_some (s : State)
    (hwfP : s.player.piece_shape.wf)
    (hsr : ((s.stage.n_rows : Int)) < 2 ^ 64)
    (hsc : ((s.stage.n_cols : Int)) < 2 ^ 64)
    (hpr : ((s.player.piece_shape.n_rows : Int)) < 2 ^ 64)
    (hpc : ((s.player.piece_shape.n_cols : Int)) < 2 ^ 64)
    (hbounds : ∀ r c : Nat, r < s.player.piece_shape.n_rows →
      c < s.player.piece_shape.n_cols →
      s.player.piece_shape.getCell r c ≠ PieceType.E →
      s.player.position.x + c < (s.stage.n_cols : Int) ∧
        s.player.position.y + r < (s.stage.n_rows : Int)) :
    ∀ (l : List (Int × Int)),
      (∀ p ∈ l, 0 ≤ p.1 ∧ p.1 < (s.player.piece_shape.n_rows : Int) ∧
        0 ≤ p.2 ∧ p.2 < (s.player.piece_shape.n_cols : Int)) →
      ∀ (st : Vec2D), st.n_rows = s.stage.n_rows → st.n_cols = s.stage.n_cols → st.wf →
      ∃ st2,
        l.foldlM (fun st cell_idx =>
          let row := cell_idx.1 + s.player.position.y
          let col := cell_idx.2 + s.player.position.x
          if row < 0 ∨ row > (s.stage.n_rows : Int) ∨ col < 0 ∨ col > (s.stage.n_cols : Int)
          then some st
          else
            (s.player.piece_shape.get (usizeOf cell_idx.1) (usizeOf cell_idx.2)).bind
              fun cell =>
                if cell ≠ PieceType.E then st.set (usizeOf row) (usizeOf col) cell
                else some st) st
          = some st2 := by
  intro l
  induction l with
  | nil =>
    intro _ st _ _ _
    exact ⟨st, rfl⟩
  | cons hd tl ih =>
    intro hmem st h1 h2 h3
    obtain ⟨hp1, hp2, hp3, hp4⟩ := hmem hd (List.mem_cons_self _ _)
    have hrn : usizeOf hd.1 < s.player.piece_shape.n_rows := by unfold usizeOf; omega
    have hcn : usizeOf hd.2 < s.player.piece_shape.n_cols := by unfold usizeOf; omega
    have hstep : ∃ st3, (if hd.1 + s.player.position.y < 0 ∨
          hd.1 + s.player.position.y > (s.stage.n_rows : Int) ∨
          hd.2 + s.player.position.x < 0 ∨
          hd.2 + s.player.position.x > (s.stage.n_cols : Int)
        then some st
        else
          (s.player.piece_shape.get (usizeOf hd.1) (usizeOf hd.2)).bind fun cell =>
            if cell ≠ PieceType.E then
              st.set (usizeOf (hd.1 + s.player.position.y))
                (usizeOf (hd.2 + s.player.position.x)) cell
            else some st) = some st3 ∧
        st3.n_rows = s.stage.n_rows ∧ st3.n_cols = s.stage.n_cols ∧ st3.wf := by
      by_cases hskip : hd.1 + s.player.position.y < 0 ∨
          hd.1 + s.player.position.y > (s.stage.n_rows : Int) ∨
          hd.2 + s.player.position.x < 0 ∨
          hd.2 + s.player.position.x > (s.stage.n_cols : Int)
      · exact ⟨st, by rw [if_pos hskip], h1, h2, h3⟩
      · push_neg at hskip
        have hget : s.player.piece_shape.get (usizeOf hd.1) (usizeOf hd.2)
            = some (s.player.piece_shape.getCell (usizeOf hd.1) (usizeOf hd.2)) := by
          unfold Vec2D.get
          rw [if_pos ⟨hrn, hcn⟩]
          exact wf_getElem_eq _ hwfP hrn hcn
        by_cases hE : s.player.piece_shape.getCell (usizeOf hd.1) (usizeOf hd.2) = PieceType.E
        · refine ⟨st, ?_, h1, h2, h3⟩
          rw [if_neg (by push_neg; exact hskip), hget, Option.some_bind,
            if_neg (by simp [hE])]
        · have hb := hbounds (usizeOf hd.1) (usizeOf hd.2) hrn hcn hE
          have hx1 : (usizeOf hd.1 : Int) = hd.1 := by unfold usizeOf; omega
          have hx2 : (usizeOf hd.2 : Int) = hd.2 := by unfold usizeOf; omega
          rw [hx1, hx2] at hb
          have hrowlt : usizeOf (hd.1 + s.player.position.y) < st.n_rows := by
            rw [h1]
            unfold usizeOf
            omega
          have hcollt : usizeOf (hd.2 + s.player.position.x) < st.n_cols := by
            rw [h2]
            unfold usizeOf
            omega
          have hidx : usizeOf (hd.1 + s.player.position.y) * st.n_cols +
              usizeOf (hd.2 + s.player.position.x) < st.data.length := by
            rw [h3]
            exact flat_lt hrowlt hcollt
          refine ⟨⟨st.n_rows, st.n_cols,
              st.data.set (usizeOf (hd.1 + s.player.position.y) * st.n_cols +
                  usizeOf (hd.2 + s.player.position.x))
                (s.player.piece_shape.getCell (usizeOf hd.1) (usizeOf hd.2))⟩,
            ?_, h1, h2, ?_⟩
          · rw [if_neg (by push_neg; exact hskip), hget, Option.some_bind, if_pos hE]
            unfold Vec2D.set
            rw [if_pos ⟨hrowlt, hcollt, hidx⟩]
          · show (st.data.set _ _).length = st.n_rows * st.n_cols
            rw [List.length_set]
            exact h3
    obtain ⟨st3, hf, hd1, hd2, hd3⟩ := hstep
    rw [List.foldlM_cons]
    have hrest := ih (fun p hp => hmem p (List.mem_cons_of_mem _ hp)) st3 hd1 hd2 hd3
    obtain ⟨st2, hst2⟩ := hrest
    refine ⟨st2, ?_⟩
    show (if hd.1 + s.player.position.y < 0 ∨
          hd.1 + s.player.position.y > (s.stage.n_rows : Int) ∨
          hd.2 + s.player.position.x < 0 ∨
          hd.2 + s.player.position.x > (s.stage.n_cols : Int)
        then some st
        else
          (s.player.piece_shape.get (usizeOf hd.1) (usizeOf hd.2)).bind fun cell =>
            if cell ≠ PieceType.E then
              st.set (usizeOf (hd.1 + s.player.position.y))
                (usizeOf (hd.2 + s.player.position.x)) cell
            else some st).bind (fun b => tl.foldlM _ b) = some st2
    rw [hf, Option.some_bind]
    exact hst2

/-- C10: whenever the active piece's position passes the bounds predicate,
the lock-in merge only writes to stage cells with row < n_rows and
col < n_cols, so the bounds assertions inside Vec2D::set never fire and the
merge completes, despite the inclusive skip comparisons. -/
theorem C10_merge_never_fails (s : State)
    (hwfP : s.player.piece_shape.wf)
    (hsr : ((s.stage.n_rows : Int)) < 2 ^ 64)
    (hsc : ((s.stage.n_cols : Int)) < 2 ^ 64)
    (hpr : ((s.player.piece_shape.n_rows : Int)) < 2 ^ 64)
    (hpc : ((s.player.piece_shape.n_cols : Int)) < 2 ^ 64)
    (hwfS : s.stage.wf)
    (hvalid : Model.is_player_position_valid s s.player.position.x s.player.position.y none
      = some true) :
    ∃ stage2, State.add_player_piece_merge s = some stage2 := by
  have hbounds := valid_true_cell_bounds s s.player.position.x s.player.position.y none
    hvalid hpr hpc
  have hfold := merge_fold_some s hwfP hsr hsc hpr hpc hbounds
    ((irange 0 (s.player.piece_shape.n_rows : Int)).flatMap fun n_row =>
      (irange 0 (s.player.piece_shape.n_cols : Int)).map fun n_col => (n_row, n_col))
    (fun p hp => by
      obtain ⟨a1, a2, a3, a4⟩ := mem_rect.mp hp
      exact ⟨a1, a2, a3, a4⟩)
    s.stage rfl rfl hwfS
  exact hfold

/-! ### C4 -/

/-- C4 counterexample: with the S piece at x = -4 the shape has a non-Empty
cell mapping left of column 0 (cell (1,1) maps to column -3), so the claim
demands the predicate return false, but the left-border scan walks columns
0..3 of the 3-column shape and panics on the shape access instead (none). -/
theorem C4_counterexample_panic :
    (shapeOf PieceType.S).getCell 1 1 ≠ PieceType.E ∧
    ((-4 : Int) + (1 : Nat) < 0) ∧
    Model.is_player_position_valid exampleSState (-4) 0 none = none := by
  refine ⟨by decide, by decide, by decide⟩

/-- The usize cast agrees with toNat on small non-negative values. -/
theorem usizeOf_eq_toNat (i : Int) (h0 : 0 ≤ i) (hlt : i < 2 ^ 64) :
    usizeOf i = i.toNat := by
  unfold usizeOf
  omega

/-- On positions whose three border scans stay inside the shape, the bounds
predicate never panics and computes, for each triggered border check, whether
some scanned cell is non-Empty. -/
theorem valid_domain_eq (s : State) (x y : Int)
    (hwf : s.player.piece_shape.wf)
    (hrows : (s.player.piece_shape.n_rows : Int) < 2 ^ 64)
    (hcols : (s.player.piece_shape.n_cols : Int) < 2 ^ 64)
    (hx1 : -(s.player.piece_shape.n_cols : Int) ≤ x)
    (hx2 : x ≤ (s.stage.n_cols : Int))
    (hy : y ≤ (s.stage.n_rows : Int)) :
    Model.is_player_position_valid s x y none = some (!(
      (if x < 0 then
        ((irange 0 (s.player.piece_shape.n_rows : Int)).flatMap fun r =>
          (irange 0 (x / (-1))).map fun c => (r, c)).any fun p =>
            decide (s.player.piece_shape.getCell (usizeOf p.1) (usizeOf p.2) ≠ PieceType.E)
       else false) ||
      (if x + (s.player.piece_shape.n_cols : Int) > (s.stage.n_cols : Int) then
        ((irange 0 (s.player.piece_shape.n_rows : Int)).flatMap fun r =>
          (irange ((s.player.piece_shape.n_cols : Int) -
              (x + (s.player.piece_shape.n_cols : Int) - (s.stage.n_cols : Int)))
            (s.player.piece_shape.n_cols : Int)).map fun c => (r, c)).any fun p =>
            decide (s.player.piece_shape.getCell (usizeOf p.1) (usizeOf p.2) ≠ PieceType.E)
       else false) ||
      (if y + (s.player.piece_shape.n_rows : Int) > (s.stage.n_rows : Int) then
        ((irange ((s.player.piece_shape.n_rows : Int) -
            (y + (s.player.piece_shape.n_rows : Int) - (s.stage.n_rows : Int)))
          (s.player.piece_shape.n_rows : Int)).flatMap fun r =>
          (irange 0 (s.player.piece_shape.n_cols : Int)).map fun c => (r, c)).any fun p =>
            decide (s.player.piece_shape.getCell (usizeOf p.1) (usizeOf p.2) ≠ PieceType.E)
       else false))) := by
  have hdiv : x / (-1 : Int) = -x := by omega
  have eL : (if x < 0 then
        pieceScan s.player.piece_shape
          ((irange 0 (s.player.piece_shape.n_rows : Int)).flatMap fun r =>
            (irange 0 (x / (-1))).map fun c => (r, c))
      else some false)
      = some (if x < 0 then
          ((irange 0 (s.player.piece_shape.n_rows : Int)).flatMap fun r =>
            (irange 0 (x / (-1))).map fun c => (r, c)).any fun p =>
              decide (s.player.piece_shape.getCell (usizeOf p.1) (usizeOf p.2) ≠ PieceType.E)
        else false) := by
    by_cases h : x < 0
    · rw [if_pos h, if_pos h]
      refine pieceScan_eq_any _ hwf hrows hcols _ fun p hp => ?_
      obtain ⟨a1, a2, a3, a4⟩ := mem_rect.mp hp
      rw [hdiv] at a4
      exact ⟨a1, a2, a3, by omega⟩
    · rw [if_neg h, if_neg h]
  have eR : (if x + (s.player.piece_shape.n_cols : Int) > (s.stage.n_cols : Int) then
        pieceScan s.player.piece_shape
          ((irange 0 (s.player.piece_shape.n_rows : Int)).flatMap fun r =>
            (irange ((s.player.piece_shape.n_cols : Int) -
                (x + (s.player.piece_shape.n_cols : Int) - (s.stage.n_cols : Int)))
              (s.player.piece_shape.n_cols : Int)).map fun c => (r, c))
      else some false)
      = some (if x + (s.player.piece_shape.n_cols : Int) > (s.stage.n_cols : Int) then
          ((irange 0 (s.player.piece_shape.n_rows : Int)).flatMap fun r =>
            (irange ((s.player.piece_shape.n_cols : Int) -
                (x + (s.player.piece_shape.n_cols : Int) - (s.stage.n_cols : Int)))
              (s.player.piece_shape.n_cols : Int)).map fun c => (r, c)).any fun p =>
              decide (s.player.piece_shape.getCell (usizeOf p.1) (usizeOf p.2) ≠ PieceType.E)
        else false) := by
    by_cases h : x + (s.player.piece_shape.n_cols : Int) > (s.stage.n_cols : Int)
    · rw [if_pos h, if_pos h]
      refine pieceScan_eq_any _ hwf hrows hcols _ fun p hp => ?_
      obtain ⟨a1, a2, a3, a4⟩ := mem_rect.mp hp
      exact ⟨a1, a2, by omega, a4⟩
    · rw [if_neg h, if_neg h]
  have eW : (if y + (s.player.piece_shape.n_rows : Int) > (s.stage.n_rows : Int) then
        pieceScan s.player.piece_shape
          ((irange ((s.player.piece_shape.n_rows : Int) -
              (y + (s.player.piece_shape.n_rows : Int) - (s.stage.n_rows : Int)))
            (s.player.piece_shape.n_rows : Int)).flatMap fun r =>
            (irange 0 (s.player.piece_shape.n_cols : Int)).map fun c => (r, c))
      else some false)
      = some (if y + (s.player.piece_shape.n_rows : Int) > (s.stage.n_rows : Int) then
          ((irange ((s.player.piece_shape.n_rows : Int) -
              (y + (s.player.piece_shape.n_rows : Int) - (s.stage.n_rows : Int)))
            (s.player.piece_shape.n_rows : Int)).flatMap fun r =>
            (irange 0 (s.player.piece_shape.n_cols : Int)).map fun c => (r, c)).any fun p =>
              decide (s.player.piece_shape.getCell (usizeOf p.1) (usizeOf p.2) ≠ PieceType.E)
        else false) := by
    by_cases h : y + (s.player.piece_shape.n_rows : Int) > (s.stage.n_rows : Int)
    · rw [if_pos h, if_pos h]
      refine pieceScan_eq_any _ hwf hrows hcols _ fun p hp => ?_
      obtain ⟨a1, a2, a3, a4⟩ := mem_rect.mp hp
      exact ⟨by omega, a2, a3, a4⟩
    · rw [if_neg h, if_neg h]
  unfold Model.is_player_position_valid
  simp only [Option.getD_none]
  rw [eL, eR, eW]
  cases hbL : (if x < 0 then
      ((irange 0 (s.player.piece_shape.n_rows : Int)).flatMap fun r =>
        (irange 0 (x / (-1))).map fun c => (r, c)).any fun p =>
          decide (s.player.piece_shape.getCell (usizeOf p.1) (usizeOf p.2) ≠ PieceType.E)
    else false) <;>
  cases hbR : (if x + (s.player.piece_shape.n_cols : Int) > (s.stage.n_cols : Int) then
      ((irange 0 (s.player.piece_shape.n_rows : Int)).flatMap fun r =>
        (irange ((s.player.piece_shape.n_cols : Int) -
            (x + (s.player.piece_shape.n_cols : Int) - (s.stage.n_cols : Int)))
          (s.player.piece_shape.n_cols : Int)).map fun c => (r, c)).any fun p =>
          decide (s.player.piece_shape.getCell (usizeOf p.1) (usizeOf p.2) ≠ PieceType.E)
    else false) <;>
  cases hbW : (if y + (s.player.piece_shape.n_rows : Int) > (s.stage.n_rows : Int) then
      ((irange ((s.player.piece_shape.n_rows : Int) -
          (y + (s.player.piece_shape.n_rows : Int) - (s.stage.n_rows : Int)))
        (s.player.piece_shape.n_rows : Int)).flatMap fun r =>
        (irange 0 (s.player.piece_shape.n_cols : Int)).map fun c => (r, c)).any fun p =>
          decide (s.player.piece_shape.getCell (usizeOf p.1) (usizeOf p.2) ≠ PieceType.E)
    else false) <;>
  rfl

/-- C4 amended: wherever the three border scans stay inside the shape's own
index range (x ≥ -shape cols, x ≤ stage cols, y ≤ stage rows; outside that
range the predicate can panic, see the counterexample), the bounds predicate
returns false exactly when some non-Empty shape cell maps left of column 0,
at or beyond the column count, or at or beyond the row count, and returns
true otherwise; cells mapping above row 0 are never checked. -/
theorem C4_bounds_characterized (s : State) (x y : Int)
    (hwf : s.player.piece_shape.wf)
    (hrows : (s.player.piece_shape.n_rows : Int) < 2 ^ 64)
    (hcols : (s.player.piece_shape.n_cols : Int) < 2 ^ 64)
    (hx1 : -(s.player.piece_shape.n_cols : Int) ≤ x)
    (hx2 : x ≤ (s.stage.n_cols : Int))
    (hy : y ≤ (s.stage.n_rows : Int)) :
    (Model.is_player_position_valid s x y none = some false ↔
      ∃ r c : Nat, r < s.player.piece_shape.n_rows ∧ c < s.player.piece_shape.n_cols ∧
        s.player.piece_shape.getCell r c ≠ PieceType.E ∧
        (x + (c : Int) < 0 ∨ (s.stage.n_cols : Int) ≤ x + (c : Int) ∨
          (s.stage.n_rows : Int) ≤ y + (r : Int))) ∧
    (Model.is_player_position_valid s x y none = some true ↔
      ¬ ∃ r c : Nat, r < s.player.piece_shape.n_rows ∧ c < s.player.piece_shape.n_cols ∧
        s.player.piece_shape.getCell r c ≠ PieceType.E ∧
        (x + (c : Int) < 0 ∨ (s.stage.n_cols : Int) ≤ x + (c : Int) ∨
          (s.stage.n_rows : Int) ≤ y + (r : Int))) := by
  have hdiv : x / (-1 : Int) = -x := by omega
  have hcomp := valid_domain_eq s x y hwf hrows hcols hx1 hx2 hy
  set AL := (if x < 0 then
      ((irange 0 (s.player.piece_shape.n_rows : Int)).flatMap fun r =>
        (irange 0 (x / (-1))).map fun c => (r, c)).any fun p =>
          decide (s.player.piece_shape.getCell (usizeOf p.1) (usizeOf p.2) ≠ PieceType.E)
    else false) with hALdef
  set AR := (if x + (s.player.piece_shape.n_cols : Int) > (s.stage.n_cols : Int) then
      ((irange 0 (s.player.piece_shape.n_rows : Int)).flatMap fun r =>
        (irange ((s.player.piece_shape.n_cols : Int) -
            (x + (s.player.piece_shape.n_cols : Int) - (s.stage.n_cols : Int)))
          (s.player.piece_shape.n_cols : Int)).map fun c => (r, c)).any fun p =>
          decide (s.player.piece_shape.getCell (usizeOf p.1) (usizeOf p.2) ≠ PieceType.E)
    else false) with hARdef
  set AW := (if y + (s.player.piece_shape.n_rows : Int) > (s.stage.n_rows : Int) then
      ((irange ((s.player.piece_shape.n_rows : Int) -
          (y + (s.player.piece_shape.n_rows : Int) - (s.stage.n_rows : Int)))
        (s.player.piece_shape.n_rows : Int)).flatMap fun r =>
        (irange 0 (s.player.piece_shape.n_cols : Int)).map fun c => (r, c)).any fun p =>
          decide (s.player.piece_shape.getCell (usizeOf p.1) (usizeOf p.2) ≠ PieceType.E)
    else false) with hAWdef
  have key : (AL || AR || AW) = true ↔
      ∃ r c : Nat, r < s.player.piece_shape.n_rows ∧ c < s.player.piece_shape.n_cols ∧
        s.player.piece_shape.getCell r c ≠ PieceType.E ∧
        (x + (c : Int) < 0 ∨ (s.stage.n_cols : Int) ≤ x + (c : Int) ∨
          (s.stage.n_rows : Int) ≤ y + (r : Int)) := by
    constructor
    · intro hor
      rcases Bool.or_eq_true_iff.mp hor with hor2 | hW
      · rcases Bool.or_eq_true_iff.mp hor2 with hA | hR
        · rw [hALdef] at hA
          by_cases hx0 : x < 0
          · rw [if_pos hx0] at hA
            obtain ⟨p, hp, hfp⟩ := List.any_eq_true.mp hA
            obtain ⟨b1, b2, b3, b4⟩ := mem_rect.mp hp
            rw [hdiv] at b4
            have hne := of_decide_eq_true hfp
            rw [usizeOf_eq_toNat _ b1 (by omega), usizeOf_eq_toNat _ b3 (by omega)] at hne
            exact ⟨p.1.toNat, p.2.toNat, by omega, by omega, hne, Or.inl (by omega)⟩
          · rw [if_neg hx0] at hA
            exact absurd hA (by simp)
        · rw [hARdef] at hR
          by_cases hc : x + (s.player.piece_shape.n_cols : Int) > (s.stage.n_cols : Int)
          · rw [if_pos hc] at hR
            obtain ⟨p, hp, hfp⟩ := List.any_eq_true.mp hR
            obtain ⟨b1, b2, b3, b4⟩ := mem_rect.mp hp
            have hne := of_decide_eq_true hfp
            rw [usizeOf_eq_toNat _ b1 (by omega), usizeOf_eq_toNat _ (by omega : 0 ≤ p.2)
              (by omega)] at hne
            exact ⟨p.1.toNat, p.2.toNat, by omega, by omega, hne,
              Or.inr (Or.inl (by omega))⟩
          · rw [if_neg hc] at hR
            exact absurd hR (by simp)
      · rw [hAWdef] at hW
        by_cases hc : y + (s.player.piece_shape.n_rows : Int) > (s.stage.n_rows : Int)
        · rw [if_pos hc] at hW
          obtain ⟨p, hp, hfp⟩ := List.any_eq_true.mp hW
          obtain ⟨b1, b2, b3, b4⟩ := mem_rect.mp hp
          have hne := of_decide_eq_true hfp
          rw [usizeOf_eq_toNat _ (by omega : 0 ≤ p.1) (by omega),
            usizeOf_eq_toNat _ b3 (by omega)] at hne
          exact ⟨p.1.toNat, p.2.toNat, by omega, by omega, hne,
            Or.inr (Or.inr (by omega))⟩
        · rw [if_neg hc] at hW
          exact absurd hW (by simp)
    · rintro ⟨r, c, hr, hc, hne, hout⟩
      have hrI : (r : Int) < (s.player.piece_shape.n_rows : Int) := by exact_mod_cast hr
      have hcI : (c : Int) < (s.player.piece_shape.n_cols : Int) := by exact_mod_cast hc
      have hfp : (fun p : Int × Int =>
          decide (s.player.piece_shape.getCell (usizeOf p.1) (usizeOf p.2) ≠ PieceType.E))
            ((r : Int), (c : Int)) = true := by
        simp only []
        rw [usizeOf_natCast r (by omega), usizeOf_natCast c (by omega)]
        exact decide_eq_true hne
      rcases hout with h | h | h
      · have hx0 : x < 0 := by omega
        refine Bool.or_eq_true_iff.mpr (Or.inl (Bool.or_eq_true_iff.mpr (Or.inl ?_)))
        rw [hALdef, if_pos hx0]
        refine List.any_eq_true.mpr ⟨((r : Int), (c : Int)), ?_, hfp⟩
        refine mem_rect.mpr ⟨by omega, hrI, by omega, ?_⟩
        rw [hdiv]
        omega
      · have hcond : x + (s.player.piece_shape.n_cols : Int) > (s.stage.n_cols : Int) := by
          omega
        refine Bool.or_eq_true_iff.mpr (Or.inl (Bool.or_eq_true_iff.mpr (Or.inr ?_)))
        rw [hARdef, if_pos hcond]
        exact List.any_eq_true.mpr ⟨((r : Int), (c : Int)),
          mem_rect.mpr ⟨by omega, hrI, by omega, hcI⟩, hfp⟩
      · have hcond : y + (s.player.piece_shape.n_rows : Int) > (s.stage.n_rows : Int) := by
          omega
        refine Bool.or_eq_true_iff.mpr (Or.inr ?_)
        rw [hAWdef, if_pos hcond]
        exact List.any_eq_true.mpr ⟨((r : Int), (c : Int)),
          mem_rect.mpr ⟨by omega, hrI, by omega, hcI⟩, hfp⟩
  constructor
  · constructor
    · intro hfalse
      rw [hcomp] at hfalse
      have hb : (AL || AR || AW) = true := by
        cases hor : (AL || AR || AW)
        · rw [hor] at hfalse
          exact absurd hfalse (by simp)
        · rfl
      exact key.mp hb
    · intro hBad
      rw [hcomp, key.mpr hBad]
      rfl
  · constructor
    · intro htrue
      rw [hcomp] at htrue
      intro hBad
      rw [key.mpr hBad] at htrue
      exact absurd htrue (by simp)
    · intro hGood
      rw [hcomp]
      cases hor : (AL || AR || AW)
      · rfl
      · exact absurd (key.mp hor) hGood

/-- Witness for C4 at a concrete input: the S piece at x = -1 has non-Empty
cells in shape column 0 mapping to stage column -1, so the predicate returns
false there. -/
theorem C4_bounds_characterized_witness :
    (exampleSState.player.piece_shape.wf ∧
      (exampleSState.player.piece_shape.n_rows : Int) < 2 ^ 64 ∧
      (exampleSState.player.piece_shape.n_cols : Int) < 2 ^ 64 ∧
      -(exampleSState.player.piece_shape.n_cols : Int) ≤ (-1 : Int) ∧
      (-1 : Int) ≤ (exampleSState.stage.n_cols : Int) ∧
      (0 : Int) ≤ (exampleSState.stage.n_rows : Int)) ∧
    ((Model.is_player_position_valid exampleSState (-1) 0 none = some false ↔
      ∃ r c : Nat, r < exampleSState.player.piece_shape.n_rows ∧
        c < exampleSState.player.piece_shape.n_cols ∧
        exampleSState.player.piece_shape.getCell r c ≠ PieceType.E ∧
        ((-1 : Int) + (c : Int) < 0 ∨
          (exampleSState.stage.n_cols : Int) ≤ (-1 : Int) + (c : Int) ∨
          (exampleSState.stage.n_rows : Int) ≤ (0 : Int) + (r : Int))) ∧
    (Model.is_player_position_valid exampleSState (-1) 0 none = some true ↔
      ¬ ∃ r c : Nat, r < exampleSState.player.piece_shape.n_rows ∧
        c < exampleSState.player.piece_shape.n_cols ∧
        exampleSState.player.piece_shape.getCell r c ≠ PieceType.E ∧
        ((-1 : Int) + (c : Int) < 0 ∨
          (exampleSState.stage.n_cols : Int) ≤ (-1 : Int) + (c : Int) ∨
          (exampleSState.stage.n_rows : Int) ≤ (0 : Int) + (r : Int)))) :=
  ⟨⟨by decide, by decide, by decide, by decide, by decide, by decide⟩,
    C4_bounds_characterized exampleSState (-1) 0 (by decide) (by decide) (by decide)
      (by decide) (by decide) (by decide)⟩

/-- Witness for C10 at a concrete input. -/
theorem C10_merge_never_fails_witness :
    (exampleBlockedState.player.piece_shape.wf ∧
      ((exampleBlockedState.stage.n_rows : Int)) < 2 ^ 64 ∧
      ((exampleBlockedState.stage.n_cols : Int)) < 2 ^ 64 ∧
      ((exampleBlockedState.player.piece_shape.n_rows : Int)) < 2 ^ 64 ∧
      ((exampleBlockedState.player.piece_shape.n_cols : Int)) < 2 ^ 64 ∧
      exampleBlockedState.stage.wf ∧
      Model.is_player_position_valid exampleBlockedState
        exampleBlockedState.player.position.x exampleBlockedState.player.position.y none
        = some true) ∧
    ∃ stage2, State.add_player_piece_merge exampleBlockedState = some stage2 :=
  ⟨⟨by decide, by decide, by decide, by decide, by decide, by decide, by decide⟩,
    C10_merge_never_fails exampleBlockedState (by decide) (by decide) (by decide)
      (by decide) (by decide) (by decide) (by decide)⟩

/-! ### C1: cell-level effect of the clearing loops -/

/-- Row-major flat indexing is injective on in-bounds coordinates. -/
theorem flat_idx_inj {r c rp cp C : Nat} (hc : c < C) (hcp : cp < C)
    (h : r * C + c = rp * C + cp) : r = rp ∧ c = cp := by
  have hC : 0 < C := by omega
  have e1 : (r * C + c) / C = r := by
    rw [Nat.mul_comm, Nat.mul_add_div hC, Nat.div_eq_of_lt hc, Nat.add_zero]
  have e2 : (rp * C + cp) / C = rp := by
    rw [Nat.mul_comm, Nat.mul_add_div hC, Nat.div_eq_of_lt hcp, Nat.add_zero]
  have hr : r = rp := by rw [← e1, ← e2, h]
  subst hr
  exact ⟨rfl, by omega⟩

/-- A bounds-respecting set on a well-formed grid succeeds. -/
theorem set_eq_some (v : Vec2D) (hwf : v.wf) {r c : Nat}
    (hr : r < v.n_rows) (hc : c < v.n_cols) (p : PieceType) :
    v.set r c p = some ⟨v.n_rows, v.n_cols, v.data.set (r * v.n_cols + c) p⟩ := by
  unfold Vec2D.set
  rw [if_pos ⟨hr, hc, by rw [hwf]; exact flat_lt hr hc⟩]

/-- Pointwise description of a single cell write. -/
theorem getCell_data_set (v : Vec2D) (hwf : v.wf) {r c rp cp : Nat}
    (hr : r < v.n_rows) (hc : c < v.n_cols) (hcp : cp < v.n_cols) (p : PieceType) :
    (Vec2D.mk v.n_rows v.n_cols (v.data.set (r * v.n_cols + c) p)).getCell rp cp
      = if rp = r ∧ cp = c then p else v.getCell rp cp := by
  show ((v.data.set (r * v.n_cols + c) p)[rp * v.n_cols + cp]?).getD PieceType.E = _
  by_cases heq : rp = r ∧ cp = c
  · obtain ⟨rfl, rfl⟩ := heq
    rw [if_pos ⟨rfl, rfl⟩, List.getElem?_set_self (by rw [hwf]; exact flat_lt hr hc)]
    rfl
  · rw [if_neg heq]
    have hne : r * v.n_cols + c ≠ rp * v.n_cols + cp := by
      intro he
      exact heq ⟨(flat_idx_inj hc hcp he).1.symm, (flat_idx_inj hc hcp he).2.symm⟩
    rw [List.getElem?_set_ne hne]
    rfl

/-- Effect of the innermost loop of remove_rows (one column, rows 0..bound-1):
every touched cell of the column takes the value of the cell one row above in
the snapshot (Empty for row 0), all other cells keep their value. -/
theorem clear_col_fold (snapshot : Vec2D) (hwfS : snapshot.wf) (n_col : Nat)
    (hcol : n_col < snapshot.n_cols) (i : Nat) (hi : i < snapshot.n_rows) :
    ∀ (bound : Nat), bound ≤ i + 1 →
    ∀ (st : Vec2D), st.n_rows = snapshot.n_rows → st.n_cols = snapshot.n_cols → st.wf →
    ∃ st2, (List.range bound).foldlM (fun st2 row =>
        (if row = 0 then some PieceType.E else snapshot.get (row - 1) n_col).bind
          fun piece => st2.set row n_col piece) st = some st2 ∧
      st2.n_rows = snapshot.n_rows ∧ st2.n_cols = snapshot.n_cols ∧ st2.wf ∧
      ∀ r c : Nat, r < snapshot.n_rows → c < snapshot.n_cols →
        st2.getCell r c = if c = n_col ∧ r < bound then
            (if r = 0 then PieceType.E else snapshot.getCell (r - 1) n_col)
          else st.getCell r c := by
  intro bound
  induction bound with
  | zero =>
    intro _ st h1 h2 h3
    refine ⟨st, by simp, h1, h2, h3, ?_⟩
    intro r c _ _
    rw [if_neg]
    rintro ⟨-, h⟩
    exact absurd h (Nat.not_lt_zero r)
  | succ bound ihb =>
    intro hble st h1 h2 h3
    obtain ⟨st2, hfold, hd1, hd2, hd3, hchar⟩ := ihb (by omega) st h1 h2 h3
    have hpe : (if bound = 0 then some PieceType.E else snapshot.get (bound - 1) n_col)
        = some (if bound = 0 then PieceType.E else snapshot.getCell (bound - 1) n_col) := by
      by_cases hb0 : bound = 0
      · rw [if_pos hb0, if_pos hb0]
      · rw [if_neg hb0, if_neg hb0]
        unfold Vec2D.get
        rw [if_pos ⟨by omega, hcol⟩]
        exact wf_getElem_eq snapshot hwfS (by omega) hcol
    have hbr : bound < st2.n_rows := by rw [hd1]; omega
    have hbc : n_col < st2.n_cols := by rw [hd2]; exact hcol
    have hset := set_eq_some st2 hd3 hbr hbc
      (if bound = 0 then PieceType.E else snapshot.getCell (bound - 1) n_col)
    refine ⟨⟨st2.n_rows, st2.n_cols, st2.data.set (bound * st2.n_cols + n_col)
        (if bound = 0 then PieceType.E else snapshot.getCell (bound - 1) n_col)⟩,
      ?_, hd1, hd2, ?_, ?_⟩
    · rw [List.range_succ, List.foldlM_append, hfold]
      simp only [Option.bind_eq_bind, Option.some_bind, List.foldlM_cons, List.foldlM_nil,
        hpe, hset, Option.pure_def]
    · show (st2.data.set _ _).length = st2.n_rows * st2.n_cols
      rw [List.length_set]
      exact hd3
    · intro r c hrn hcn
      have hcpn : c < st2.n_cols := by rw [hd2]; exact hcn
      rw [getCell_data_set st2 hd3 hbr hbc hcpn]
      by_cases hrb : r = bound ∧ c = n_col
      · obtain ⟨rfl, rfl⟩ := hrb
        rw [if_pos (show r = r ∧ c = c from ⟨rfl, rfl⟩)]
        rw [if_pos (show c = c ∧ r < r + 1 from ⟨rfl, by omega⟩)]
      · rw [if_neg hrb, hchar r c hrn hcn]
        by_cases hold : c = n_col ∧ r < bound
        · rw [if_pos hold]
          rw [if_pos (show c = n_col ∧ r < bound + 1 from ⟨hold.1, by omega⟩)]
        · rw [if_neg hold, if_neg ?_]
          rintro ⟨he1, he2⟩
          by_cases hreq : r = bound
          · exact hrb ⟨hreq, he1⟩
          · exact hold ⟨he1, by omega⟩

/-- Effect of the two inner loops of remove_rows for one cleared row index i:
columns 0..k-1, rows 0..i each take the value of the cell one row above in
the snapshot (Empty for row 0). -/
theorem clear_cols_fold (v : Vec2D) (hwf : v.wf) (i : Nat) (hi : i < v.n_rows) :
    ∀ (k : Nat), k ≤ v.n_cols →
    ∀ (st : Vec2D), st.n_rows = v.n_rows → st.n_cols = v.n_cols → st.wf →
    ∃ st2, (List.range k).foldlM (fun st n_col =>
        (List.range (i + 1)).foldlM (fun st2 row =>
          (if row = 0 then some PieceType.E else v.get (row - 1) n_col).bind
            fun piece => st2.set row n_col piece) st) st = some st2 ∧
      st2.n_rows = v.n_rows ∧ st2.n_cols = v.n_cols ∧ st2.wf ∧
      ∀ r c : Nat, r < v.n_rows → c < v.n_cols →
        st2.getCell r c = if c < k ∧ r ≤ i then
            (if r = 0 then PieceType.E else v.getCell (r - 1) c)
          else st.getCell r c := by
  intro k
  induction k with
  | zero =>
    intro _ st h1 h2 h3
    refine ⟨st, by simp, h1, h2, h3, ?_⟩
    intro r c _ _
    rw [if_neg]
    rintro ⟨h4, -⟩
    exact absurd h4 (Nat.not_lt_zero c)
  | succ k ihk =>
    intro hkle st h1 h2 h3
    obtain ⟨st2, hfold, hd1, hd2, hd3, hchar⟩ := ihk (by omega) st h1 h2 h3
    obtain ⟨st3, hcolfold, he1, he2, he3, hcchar⟩ :=
      clear_col_fold v hwf k (by omega) i hi (i + 1) (Nat.le_refl _) st2 hd1 hd2 hd3
    refine ⟨st3, ?_, he1, he2, he3, ?_⟩
    · rw [List.range_succ k, List.foldlM_append, hfold]
      simp only [Option.bind_eq_bind, Option.some_bind, List.foldlM_cons, List.foldlM_nil,
        hcolfold, Option.pure_def]
    · intro r c hrn hcn
      rw [hcchar r c hrn hcn]
      by_cases hck : c = k ∧ r < i + 1
      · rw [if_pos hck]
        rw [if_pos (show c < k + 1 ∧ r ≤ i from ⟨by omega, by omega⟩), hck.1]
      · rw [if_neg hck, hchar r c hrn hcn]
        by_cases hck2 : c < k ∧ r ≤ i
        · rw [if_pos hck2]
          rw [if_pos (show c < k + 1 ∧ r ≤ i from ⟨by omega, hck2.2⟩)]
        · rw [if_neg hck2, if_neg ?_]
          rintro ⟨hf1, hf2⟩
          by_cases hceq : c = k
          · exact hck ⟨hceq, by omega⟩
          · exact hck2 ⟨by omega, hf2⟩

/-- Rows of the grid after one remove_rows iteration on cleared row i: row 0
becomes Empty, rows 1..i take the previous row's cells, rows beyond i are
untouched. -/
theorem clear_step_rows (v : Vec2D) (hwf : v.wf) (i : Nat) (hi : i < v.n_rows) (W : Nat)
    (hW : v.n_cols = W) :
    ∃ v1, (List.range W).foldlM (fun st n_col =>
        (List.range (i + 1)).foldlM (fun st2 row =>
          (if row = 0 then some PieceType.E else v.get (row - 1) n_col).bind
            fun piece => st2.set row n_col piece) st) v = some v1 ∧
      v1.n_rows = v.n_rows ∧ v1.n_cols = v.n_cols ∧ v1.wf ∧
      v1.rowOf 0 = List.replicate v.n_cols PieceType.E ∧
      (∀ m : Nat, 1 ≤ m → m ≤ i → v1.rowOf m = v.rowOf (m - 1)) ∧
      (∀ m : Nat, i < m → m < v.n_rows → v1.rowOf m = v.rowOf m) := by
  subst hW
  obtain ⟨v1, hfold, hd1, hd2, hd3, hchar⟩ :=
    clear_cols_fold v hwf i hi v.n_cols (Nat.le_refl _) v rfl rfl hwf
  refine ⟨v1, hfold, hd1, hd2, hd3, ?_, ?_, ?_⟩
  · refine List.eq_replicate_iff.mpr ⟨?_, ?_⟩
    · show ((List.range v1.n_cols).map _).length = v.n_cols
      rw [List.length_map, List.length_range, hd2]
    · intro b hb
      obtain ⟨c, hcr, hcb⟩ := List.mem_map.mp hb
      rw [List.mem_range, hd2] at hcr
      rw [← hcb, hchar 0 c (by omega) hcr,
        if_pos (show c < v.n_cols ∧ 0 ≤ i from ⟨hcr, by omega⟩)]
      rfl
  · intro m hm1 hmi
    show (List.range v1.n_cols).map _ = _
    rw [hd2]
    refine List.map_congr_left ?_
    intro c hcr
    rw [List.mem_range] at hcr
    rw [hchar m c (by omega) hcr,
      if_pos (show c < v.n_cols ∧ m ≤ i from ⟨hcr, hmi⟩), if_neg (by omega)]
  · intro m hmi hmn
    show (List.range v1.n_cols).map _ = _
    rw [hd2]
    refine List.map_congr_left ?_
    intro c hcr
    rw [List.mem_range] at hcr
    rw [hchar m c hmn hcr, if_neg (by rintro ⟨-, h⟩; omega)]

/-- An Option fold whose steps all succeed is the plain fold. -/
theorem foldlM_total {α β : Type} (F : β → α → Option β) (g : β → α → β)
    (l : List α) (h : ∀ b a, a ∈ l → F b a = some (g b a)) (b : β) :
    l.foldlM F b = some (l.foldl g b) := by
  induction l generalizing b with
  | nil => rfl
  | cons hd tl ih =>
    rw [List.foldlM_cons, h b hd (List.mem_cons_self _ _)]
    simp only [Option.bind_eq_bind, Option.some_bind]
    rw [List.foldl_cons]
    exact ih (fun b2 a ha => h b2 a (List.mem_cons_of_mem _ ha)) (g b hd)

/-- Or-accumulation over a list computes any. -/
theorem foldl_or_any {α : Type} (q : α → Prop) [DecidablePred q] (l : List α) (b : Bool) :
    l.foldl (fun acc a => if q a then true else acc) b
      = (b || l.any fun a => decide (q a)) := by
  induction l generalizing b with
  | nil => simp
  | cons hd tl ih =>
    rw [List.foldl_cons, List.any_cons, ih]
    by_cases hq : q hd
    · simp [hq]
    · simp [hq]

/-- Push-accumulation over a list computes append-filter. -/
theorem foldl_push_filter {α : Type} (q : α → Prop) [DecidablePred q] (l : List α) :
    ∀ (init : List α), l.foldl (fun acc a => if q a then acc ++ [a] else acc) init
      = init ++ l.filter fun a => decide (q a) := by
  induction l with
  | nil => intro init; simp
  | cons hd tl ih =>
    intro init
    rw [List.foldl_cons, List.filter_cons]
    by_cases hq : q hd
    · rw [if_pos hq, if_pos (by simp [hq]), ih]
      simp
    · rw [if_neg hq, if_neg (by simp [hq]), ih]

/-- Under well-formedness, get_completed_rows lists exactly the ascending
indices of the rows without an Empty cell. -/
theorem get_completed_rows_eq (v : Vec2D) (hwf : v.wf) :
    Model.get_completed_rows v = some ((List.range v.n_rows).filter
      fun r => decide (¬ PieceType.E ∈ v.rowOf r)) := by
  have hrow : ∀ a : Nat, a < v.n_rows → (List.range v.n_cols).foldlM
      (fun empty_cell_exists n_col => (v.get a n_col).map fun cell =>
        if cell = PieceType.E then true else empty_cell_exists) false
      = some ((List.range v.n_cols).any fun c =>
          decide (v.getCell a c = PieceType.E)) := by
    intro a ha
    rw [foldlM_total _ (fun acc c => if v.getCell a c = PieceType.E then true else acc)
      _ ?_ false]
    · rw [foldl_or_any (fun c => v.getCell a c = PieceType.E)]
      simp
    · intro b c hcmem
      rw [List.mem_range] at hcmem
      have hg : v.get a c = some (v.getCell a c) := by
        unfold Vec2D.get
        rw [if_pos ⟨ha, hcmem⟩]
        exact wf_getElem_eq v hwf ha hcmem
      rw [hg, Option.map_some']
  unfold Model.get_completed_rows
  rw [foldlM_total _ (fun full_rows n_row =>
      if ((List.range v.n_cols).any fun c =>
          decide (v.getCell n_row c = PieceType.E)) = false
      then full_rows ++ [n_row] else full_rows) _ ?_ []]
  · rw [foldl_push_filter (fun a => ((List.range v.n_cols).any fun c =>
        decide (v.getCell a c = PieceType.E)) = false), List.nil_append]
    congr 1
    refine List.filter_congr ?_
    intro r hr
    rw [List.mem_range] at hr
    have hiff : (((List.range v.n_cols).any fun c =>
        decide (v.getCell r c = PieceType.E)) = false) ↔ ¬ PieceType.E ∈ v.rowOf r := by
      rw [← Bool.not_eq_true]
      constructor
      · intro hfalse hmem
        obtain ⟨c, hcm, hcv⟩ := List.mem_map.mp hmem
        exact hfalse (List.any_eq_true.mpr ⟨c, hcm, decide_eq_true hcv⟩)
      · intro hmem hany
        obtain ⟨c, hcm, hcv⟩ := List.any_eq_true.mp hany
        exact hmem (List.mem_map.mpr ⟨c, hcm, of_decide_eq_true hcv⟩)
    exact decide_eq_decide.mpr hiff
  · intro b a hamem
    rw [List.mem_range] at hamem
    rw [hrow a hamem, Option.map_some']

/-- The row list has one entry per grid row. -/
theorem rowsOf_length (v : Vec2D) : v.rowsOf.length = v.n_rows := by
  unfold Vec2D.rowsOf
  rw [List.length_map, List.length_range]

/-- Indexing the row list. -/
theorem rowsOf_getElem (v : Vec2D) {m : Nat} (hm : m < v.n_rows) :
    v.rowsOf[m]? = some (v.rowOf m) := by
  unfold Vec2D.rowsOf
  rw [List.getElem?_map, List.getElem?_range hm, Option.map_some']

/-- The net effect of remove_rows on the full ascending list of the grid's
Empty-free row indices: those rows disappear, that many Empty rows are
prepended, and the remaining rows keep their relative order. -/
theorem remove_fold_spec (W : Nat) (hW0 : 0 < W) :
    ∀ (is : List Nat) (v : Vec2D), v.wf → v.n_cols = W →
    (∀ m : Nat, m < v.n_rows → (¬ PieceType.E ∈ v.rowOf m ↔ m ∈ is)) →
    List.Sorted (· < ·) is →
    (∀ j ∈ is, j < v.n_rows) →
    ∃ v2, is.foldlM (fun current n_row =>
        (List.range W).foldlM (fun st n_col =>
          (List.range (n_row + 1)).foldlM (fun st2 row =>
            (if row = 0 then some PieceType.E else current.get (row - 1) n_col).bind
              fun piece => st2.set row n_col piece) st) current) v = some v2 ∧
      v2.n_rows = v.n_rows ∧ v2.n_cols = v.n_cols ∧ v2.wf ∧
      v2.rowsOf = List.replicate is.length (List.replicate W PieceType.E) ++
        v.rowsOf.filter (fun row => decide (PieceType.E ∈ row)) := by
  intro is
  induction is with
  | nil =>
    intro v hwf hvW hfull _ _
    refine ⟨v, rfl, rfl, rfl, hwf, ?_⟩
    simp only [List.length_nil, List.replicate_zero, List.nil_append]
    symm
    rw [List.filter_eq_self]
    intro row hrow
    obtain ⟨m, hmr, hme⟩ := List.mem_map.mp hrow
    rw [List.mem_range] at hmr
    rw [← hme]
    refine decide_eq_true ?_
    by_contra hno
    exact absurd ((hfull m hmr).mp hno) (List.not_mem_nil m)
  | cons i rest ih =>
    intro v hwf hvW hfull hsort hbound
    have hi : i < v.n_rows := hbound i (List.mem_cons_self _ _)
    have hifull : ¬ PieceType.E ∈ v.rowOf i := (hfull i hi).mpr (List.mem_cons_self _ _)
    obtain ⟨hrestlt, hsortrest⟩ := List.sorted_cons.mp hsort
    obtain ⟨v1, hstep, hd1, hd2, hd3, hrow0, hrowshift, hrowkeep⟩ :=
      clear_step_rows v hwf i hi W hvW
    have hWv : v.n_cols = W := hvW
    have hv1W : v1.n_cols = W := by rw [hd2, hvW]
    have hfull1 : ∀ m : Nat, m < v1.n_rows → (¬ PieceType.E ∈ v1.rowOf m ↔ m ∈ rest) := by
      intro m hm
      rw [hd1] at hm
      rcases Nat.eq_zero_or_pos m with rfl | hm0
      · rw [hrow0]
        constructor
        · intro hno
          exact absurd (List.mem_replicate.mpr ⟨by omega, rfl⟩) hno
        · intro hmem
          exact absurd (hrestlt 0 hmem) (by omega)
      · by_cases hmi : m ≤ i
        · rw [hrowshift m (by omega) hmi]
          constructor
          · intro hno
            rcases List.mem_cons.mp ((hfull (m - 1) (by omega)).mp hno) with he | hr2
            · exact absurd he (by omega)
            · exact absurd (hrestlt _ hr2) (by omega)
          · intro hmem
            exact absurd (hrestlt m hmem) (by omega)
        · rw [hrowkeep m (by omega) hm, hfull m hm, List.mem_cons]
          constructor
          · rintro (he | hr2)
            · exact absurd he (by omega)
            · exact hr2
          · exact fun h => Or.inr h
    have hbound1 : ∀ j ∈ rest, j < v1.n_rows := by
      intro j hj
      rw [hd1]
      exact hbound j (List.mem_cons_of_mem _ hj)
    obtain ⟨v2, hrec, hg1, hg2, hg3, hgrows⟩ := ih v1 hd3 hv1W hfull1 hsortrest hbound1
    have hL1 : v1.rowsOf = List.replicate W PieceType.E ::
        (v.rowsOf.take i ++ v.rowsOf.drop (i + 1)) := by
      apply List.ext_getElem?
      intro m
      have hlenL : v.rowsOf.length = v.n_rows := rowsOf_length v
      have hlentake : (v.rowsOf.take i).length = i := by
        rw [List.length_take, hlenL]
        omega
      rcases Nat.lt_or_ge m v.n_rows with hm | hm
      · have hleft : v1.rowsOf[m]? = some (v1.rowOf m) :=
          rowsOf_getElem v1 (by rw [hd1]; exact hm)
        rcases Nat.eq_zero_or_pos m with rfl | hm0
        · rw [hleft, List.getElem?_cons_zero, hrow0, hWv]
        · obtain ⟨m2, rfl⟩ : ∃ m2, m = m2 + 1 := ⟨m - 1, by omega⟩
          rw [hleft, List.getElem?_cons_succ]
          by_cases hmi : m2 + 1 ≤ i
          · rw [List.getElem?_append_left (by rw [hlentake]; omega),
              List.getElem?_take_of_lt (by omega),
              rowsOf_getElem v (by omega),
              hrowshift (m2 + 1) (by omega) hmi]
            rfl
          · rw [List.getElem?_append_right (by rw [hlentake]; omega),
              hlentake, List.getElem?_drop,
              show i + 1 + (m2 - i) = m2 + 1 by omega,
              rowsOf_getElem v hm,
              hrowkeep (m2 + 1) (by omega) hm]
      · have hlen1 : v1.rowsOf.length = v.n_rows := by
          rw [rowsOf_length, hd1]
        rw [List.getElem?_eq_none (by rw [hlen1]; exact hm),
          List.getElem?_eq_none ?_]
        simp only [List.length_cons, List.length_append, hlentake, List.length_drop, hlenL]
        omega
    have htake : (v.rowsOf.take i).filter (fun row => decide (PieceType.E ∈ row))
        = v.rowsOf.take i := by
      rw [List.filter_eq_self]
      intro row hrow
      have hrange : v.rowsOf.take i = ((List.range v.n_rows).take i).map v.rowOf := by
        unfold Vec2D.rowsOf
        rw [List.map_take]
      rw [hrange, List.take_range i v.n_rows, Nat.min_eq_left (by omega)] at hrow
      obtain ⟨m, hmr, hme⟩ := List.mem_map.mp hrow
      rw [List.mem_range] at hmr
      rw [← hme]
      refine decide_eq_true ?_
      by_contra hno
      rcases List.mem_cons.mp ((hfull m (by omega)).mp hno) with he | hr2
      · exact absurd he (by omega)
      · exact absurd (hrestlt _ hr2) (by omega)
    have hfiltL : v.rowsOf.filter (fun row => decide (PieceType.E ∈ row))
        = v.rowsOf.take i ++ (v.rowsOf.drop (i + 1)).filter
            (fun row => decide (PieceType.E ∈ row)) := by
      have hlenL : i < v.rowsOf.length := by rw [rowsOf_length]; exact hi
      have hgetI : v.rowsOf[i] = v.rowOf i := by
        have h2 := rowsOf_getElem v hi
        rw [List.getElem?_eq_getElem hlenL] at h2
        exact Option.some.inj h2
      conv_lhs => rw [← List.take_append_drop i v.rowsOf,
        List.drop_eq_getElem_cons hlenL]
      rw [List.filter_append, htake, List.filter_cons, hgetI,
        if_neg (by simp [hifull])]
    refine ⟨v2, ?_, by rw [hg1, hd1], by rw [hg2, hd2], hg3, ?_⟩
    · rw [List.foldlM_cons]
      simp only [Option.bind_eq_bind]
      rw [hstep, Option.some_bind]
      exact hrec
    · rw [hgrows, hL1, List.filter_cons,
        if_pos (decide_eq_true (List.mem_replicate.mpr ⟨by omega, rfl⟩)),
        List.filter_append, htake, hfiltL]
      rw [show (i :: rest).length = rest.length + 1 from rfl, List.replicate_succ']
      simp [List.append_assoc]

/-- C1: for every well-formed grid, the line-clear step (get_completed_rows
followed by remove_rows on its result) succeeds and turns the grid into
exactly: that many all-Empty rows on top, followed by the non-full rows in
their original relative order; the cleared rows are exactly the ascending
indices of the rows without an Empty cell. -/
theorem C1_line_clear_net_effect (v : Vec2D) (hwf : v.wf) (hc : 0 < v.n_cols) :
    ∃ rows v2,
      Model.get_completed_rows v = some rows ∧
      State.remove_rows v rows = some v2 ∧
      rows = (List.range v.n_rows).filter (fun r => decide (¬ PieceType.E ∈ v.rowOf r)) ∧
      v2.n_rows = v.n_rows ∧ v2.n_cols = v.n_cols ∧
      v2.rowsOf = List.replicate rows.length (List.replicate v.n_cols PieceType.E) ++
        v.rowsOf.filter (fun row => decide (PieceType.E ∈ row)) := by
  have hrows := get_completed_rows_eq v hwf
  have hfull : ∀ m : Nat, m < v.n_rows → (¬ PieceType.E ∈ v.rowOf m ↔
      m ∈ (List.range v.n_rows).filter (fun r => decide (¬ PieceType.E ∈ v.rowOf r))) := by
    intro m hm
    rw [List.mem_filter, List.mem_range]
    constructor
    · intro h
      exact ⟨hm, decide_eq_true h⟩
    · rintro ⟨-, h2⟩
      exact of_decide_eq_true h2
  have hsorted : List.Sorted (· < ·)
      ((List.range v.n_rows).filter (fun r => decide (¬ PieceType.E ∈ v.rowOf r))) :=
    (List.sorted_lt_range v.n_rows).filter _
  have hbound : ∀ j ∈ (List.range v.n_rows).filter
      (fun r => decide (¬ PieceType.E ∈ v.rowOf r)), j < v.n_rows := by
    intro j hj
    rw [List.mem_filter, List.mem_range] at hj
    exact hj.1
  obtain ⟨v2, hrem, h1, h2, _h3, h4⟩ := remove_fold_spec v.n_cols hc
    ((List.range v.n_rows).filter (fun r => decide (¬ PieceType.E ∈ v.rowOf r)))
    v hwf rfl hfull hsorted hbound
  exact ⟨_, v2, hrows, hrem, rfl, h1, h2, h4⟩

/-- Witness for C1 at the concrete grid whose rows 2 and 5 are full: the
cleared rows are exactly [2, 5]. -/
theorem C1_line_clear_net_effect_witness :
    (exampleClearGrid.wf ∧ 0 < exampleClearGrid.n_cols) ∧
    Model.get_completed_rows exampleClearGrid = some [2, 5] ∧
    State.remove_rows exampleClearGrid [2, 5] = some exampleClearedGrid ∧
    (∃ rows v2,
      Model.get_completed_rows exampleClearGrid = some rows ∧
      State.remove_rows exampleClearGrid rows = some v2 ∧
      rows = (List.range exampleClearGrid.n_rows).filter
        (fun r => decide (¬ PieceType.E ∈ exampleClearGrid.rowOf r)) ∧
      v2.n_rows = exampleClearGrid.n_rows ∧ v2.n_cols = exampleClearGrid.n_cols ∧
      v2.rowsOf = List.replicate rows.length
          (List.replicate exampleClearGrid.n_cols PieceType.E) ++
        exampleClearGrid.rowsOf.filter (fun row => decide (PieceType.E ∈ row))) :=
  ⟨⟨by decide, by decide⟩, by decide, by decide,
    C1_line_clear_net_effect exampleClearGrid (by decide) (by decide)⟩
